import Mathlib

/-!
# gomon: the monitoring engine and the website handlers

A shallow embedding of `src/models/website.go`, `src/workers/monitor.go`,
`src/handlers/website.go` and the cron task of `main.go`.

* Go `int` and `int64` values are `Int`; the one arithmetic expression of the
  engine, `now - website.LastCheckedAt`, is taken modulo `2^64` (`wrapInt64`).
* The external key-value store is a map from keys to stored values; a stored
  value either decodes (with `json.Unmarshal`) to a `Website` or it does not.
* The answers of the outside world (the listing, the clock, the HTTP fetch,
  whether a put succeeds) are read from an `Env`.
* `checkWebsites` starts one goroutine per due website. The cycle is a small-step
  machine: a `Tid` names the goroutine that takes the next step, and a schedule
  (a list of `Tid`) is one interleaving of the main goroutine with the probes.
* A fetch may also fail to return: the JavaScript side throws, the probe goroutine
  panics, nothing recovers, and the process exits. The state then has `crashed`
  set and no goroutine takes another step.
-/

namespace Gomon

/-! ## `src/models/website.go` -/

/-- Go `type StatusType string`. -/
abbrev StatusType := String

def StatusUp : StatusType := "up"
def StatusDown : StatusType := "down"
def StatusDegraded : StatusType := "degraded"
def StatusUnknown : StatusType := "unknown"

/-- Go `type Website struct`. -/
structure Website where
  URL : String
  Frequency : Int
  LastCheckedAt : Int
  CreatedAt : Int
  Status : StatusType
  ResponseTime : Int
  StatusCode : Int
  Error : String
deriving DecidableEq, Repr

/-- Go `type CreateWebsiteRequest struct`. -/
structure CreateWebsiteRequest where
  URL : String
  Frequency : Int
deriving DecidableEq, Repr

/-- Source `GetKey`: `fmt.Sprintf("websites_%s", url)`. -/
def GetKey (url : String) : String := "websites_" ++ url

/-! ## Machine integers -/

/-- The value an `int64` holds after an arithmetic result `x` (two's complement). -/
def wrapInt64 (x : Int) : Int :=
  (x + 9223372036854775808) % 18446744073709551616 - 9223372036854775808

/-- The value fits an `int64` (and a Go `int` of the `js/wasm` target). -/
def isInt64 (x : Int) : Prop :=
  -9223372036854775808 ≤ x ∧ x < 9223372036854775808

instance (x : Int) : Decidable (isInt64 x) := by
  unfold isInt64; infer_instance

/-! ## `src/storage/kv_storage.go` -/

/-- A value held by the store under a key, seen through `json.Unmarshal` into a
`models.Website`: either it decodes to a record, or decoding fails. -/
inductive Stored where
  | record (w : Website)
  | malformed (raw : String)
deriving DecidableEq, Repr

/-- The contents of the key-value namespace. -/
abbrev KVData := String → Option Stored

/-- Source `GetJSON`: `GetString` then `json.Unmarshal`; `none` stands for the returned
error (key absent, or the value does not decode). -/
def GetJSON (kv : KVData) (key : String) : Option Website :=
  match kv key with
  | some (Stored.record w) => some w
  | _ => none

/-- Source `PutJSON`: `json.Marshal` then `PutString`. `ok` is the store's answer; a put
that returns an error leaves the contents as they were. The second component is
`true` when no error is returned. -/
def PutJSON (ok : Bool) (kv : KVData) (key : String) (value : Website) : KVData × Bool :=
  if ok then (fun k => if k = key then some (Stored.record value) else kv k, true)
  else (kv, false)

/-! ## `src/workers/monitor.go`: `updateStatus` and `checkWebsite` -/

/-- Source `Monitor.updateStatus`, lines 120-145. `clock` is `time.Now().Unix()` and
`putOk` the store's answer to the put. Returns the mutated record and the store. -/
def updateStatus (clock : Int) (putOk : Bool) (kv : KVData) (website : Website)
    (statusCode responseTime : Int) (errorMsg : String) : Website × KVData :=
  let website := { website with
    LastCheckedAt := clock, ResponseTime := responseTime,
    StatusCode := statusCode, Error := errorMsg }
  let website :=
    if errorMsg ≠ "" then { website with Status := StatusDown }
    else if statusCode ≥ 500 then { website with Status := StatusDown }
    else if statusCode ≥ 400 then { website with Status := StatusDegraded }
    else if statusCode ≥ 200 ∧ statusCode < 300 then { website with Status := StatusUp }
    else { website with Status := StatusUnknown }
  let key := GetKey website.URL
  (website, (PutJSON putOk kv key website).1)

/-- The classification rule of the Outcome Classifier, written from the
specification (section 4.3), to be compared with `updateStatus`. -/
def classifySpec (errorMessage : String) (statusCode : Int) : StatusType :=
  if errorMessage ≠ "" then "down"
  else if statusCode ≥ 500 then "down"
  else if 400 ≤ statusCode ∧ statusCode < 500 then "degraded"
  else if 200 ≤ statusCode ∧ statusCode < 300 then "up"
  else "unknown"

/-- What the HTTP layer answers to one probe of `checkWebsite`. -/
inductive FetchResult where
  /-- The call `fetch.NewRequest` returned an error (line 98). -/
  | requestError (msg : String)
  /-- The call `cli.Do` returned an error after `elapsedMs` milliseconds (line 109). -/
  | transportError (msg : String) (elapsedMs : Int)
  /-- The call `cli.Do` returned a response. -/
  | response (statusCode : Int) (elapsedMs : Int)
deriving DecidableEq, Repr

/-- Source `Monitor.checkWebsite`, lines 90-117, after the fetch has answered `r`. -/
def checkWebsite (clock : Int) (putOk : Bool) (kv : KVData) (website : Website)
    (r : FetchResult) : Website × KVData :=
  match r with
  | FetchResult.requestError msg => updateStatus clock putOk kv website 0 (-1) msg
  | FetchResult.transportError msg elapsedMs =>
      updateStatus clock putOk kv website 0 elapsedMs msg
  | FetchResult.response statusCode elapsedMs =>
      updateStatus clock putOk kv website statusCode elapsedMs ""


/-! ## `src/workers/monitor.go`: the cycle -/

/-- Go `type Monitor struct`. The `storage` field points to the shared store, which
the machine state carries as `kv`; `httpClient` is never assigned or read. -/
structure Monitor where
  isRunning : Bool
deriving DecidableEq, Repr

/-- Source `NewMonitor`. -/
def NewMonitor : Monitor := { isRunning := false }

/-- The due test of line 72:
`website.LastCheckedAt == 0 || now-website.LastCheckedAt >= int64(website.Frequency)`.
The subtraction is an `int64` subtraction; `int64(...)` of a 64-bit `int` is the
identity. -/
def isDue (now : Int) (website : Website) : Bool :=
  website.LastCheckedAt == 0
    || decide (wrapInt64 (now - website.LastCheckedAt) ≥ website.Frequency)

/-- The answers of the outside world during one cycle. Probe goroutines are
numbered in the order in which line 76 starts them. -/
structure Env where
  /-- The result of `m.storage.List("websites_", 1000)`; `none` is an error. -/
  listing : Option (List String)
  /-- The value of `time.Now().Unix()` on line 63. -/
  now : Int
  /-- The answer of the HTTP layer to goroutine `i` probing a URL. With `none` the
  call `cli.Do` does not return: the JavaScript side throws (a URL that Go parses
  and the `Request` constructor rejects, such as `a.test`), the goroutine panics,
  nothing in the repository recovers, and the process exits. -/
  fetch : Nat → String → Option FetchResult
  /-- The value of `time.Now().Unix()` in the `updateStatus` of goroutine `i`. -/
  clock : Nat → Int
  /-- Whether the put of goroutine `i` succeeds. -/
  putOk : Nat → Bool

/-- Operations on the store and on the network, in the order they are issued. -/
inductive Event where
  | list (keyStart : String) (limit : Int)
  | getJSON (key : String) (result : Option Website)
  /-- The `go` statement of line 76 starts goroutine `i` with its copy of the record. -/
  | start (i : Nat) (site : Website)
  | probe (i : Nat) (url : String)
  | putJSON (i : Nat) (key : String) (value : Website) (ok : Bool)
deriving DecidableEq, Repr

/-- Where the main goroutine stands in `StartMonitoring` / `checkWebsites`. -/
inductive MainPC where
  /-- At the entry of `StartMonitoring`. -/
  | start
  /-- At the entry of `checkWebsites`, before `storage.List`. -/
  | list
  /-- In the loop of line 64, with the keys still to visit. -/
  | scan (keys : List String)
  /-- At `wg.Wait()`. -/
  | wait
  /-- After the return of `StartMonitoring`. -/
  | returned
deriving DecidableEq, Repr

/-- Where a probe goroutine (lines 76-79) stands. -/
inductive ProbePC where
  /-- Started, `checkWebsite` has not fetched yet. -/
  | ready
  /-- The fetch has answered; `updateStatus` has not run yet. -/
  | fetched (r : FetchResult)
  /-- After `updateStatus` and the deferred `wg.Done()`. -/
  | finished
  /-- The fetch panicked; the process is gone. -/
  | panicked
deriving DecidableEq, Repr

/-- A probe goroutine: its own copy `site` of the record and its position. -/
structure Probe where
  site : Website
  pc : ProbePC
deriving DecidableEq, Repr

/-- The state of one `StartMonitoring` call: the monitor, the shared store, the
main goroutine, the probe goroutines in start order, the `sync.WaitGroup`
counter, the operations issued so far, and whether a panic has ended the
process. -/
structure State where
  m : Monitor
  kv : KVData
  pc : MainPC
  probes : List Probe
  wg : Nat
  trace : List Event
  crashed : Bool

/-- A goroutine of the cycle. -/
inductive Tid where
  | main
  | probe (i : Nat)
deriving DecidableEq, Repr

/-- One iteration of the loop of lines 64-81 for `key`, `rest` being the keys
after it. A failed `GetJSON` is the `continue` of line 68. -/
def scanKey (now : Int) (s : State) (key : String) (rest : List String) : State :=
  match GetJSON s.kv key with
  | none =>
      { s with pc := MainPC.scan rest, trace := s.trace ++ [Event.getJSON key none] }
  | some website =>
      if isDue now website then
        { s with
          pc := MainPC.scan rest
          wg := s.wg + 1
          probes := s.probes ++ [{ site := website, pc := ProbePC.ready }]
          trace := s.trace
            ++ [Event.getJSON key (some website), Event.start s.probes.length website] }
      else
        { s with
          pc := MainPC.scan rest
          trace := s.trace ++ [Event.getJSON key (some website)] }

/-- One step of the main goroutine through `StartMonitoring` (lines 33-44) and
`checkWebsites` (lines 47-87). At `wg.Wait()` it moves on only when the counter
is zero. -/
def mainStep (env : Env) (s : State) : State :=
  match s.pc with
  | MainPC.start =>
      if s.m.isRunning then { s with pc := MainPC.returned }
      else { s with m := { isRunning := true }, pc := MainPC.list }
  | MainPC.list =>
      match env.listing with
      | none =>
          { s with pc := MainPC.returned, trace := s.trace ++ [Event.list "websites_" 1000] }
      | some keys =>
          if keys.length = 0 then
            { s with pc := MainPC.returned, trace := s.trace ++ [Event.list "websites_" 1000] }
          else
            { s with pc := MainPC.scan keys, trace := s.trace ++ [Event.list "websites_" 1000] }
  | MainPC.scan [] => { s with pc := MainPC.wait }
  | MainPC.scan (key :: rest) => scanKey env.now s key rest
  | MainPC.wait => if s.wg = 0 then { s with pc := MainPC.returned } else s
  | MainPC.returned => s

/-- One step of probe goroutine `i`: first the fetch of `checkWebsite`, then its
`updateStatus` (one put) followed by the deferred `wg.Done()`. A fetch that does
not return is a panic of the goroutine: its deferred `wg.Done()` runs while the
panic unwinds, then the process exits (`crashed`). -/
def probeStep (env : Env) (i : Nat) (s : State) : State :=
  match s.probes.get? i with
  | none => s
  | some p =>
      match p.pc with
      | ProbePC.ready =>
          match env.fetch i p.site.URL with
          | none =>
              { s with
                crashed := true
                probes := s.probes.set i { p with pc := ProbePC.panicked }
                wg := s.wg - 1
                trace := s.trace ++ [Event.probe i p.site.URL] }
          | some r =>
              { s with
                probes := s.probes.set i { p with pc := ProbePC.fetched r }
                trace := s.trace ++ [Event.probe i p.site.URL] }
      | ProbePC.fetched r =>
          let out := checkWebsite (env.clock i) (env.putOk i) s.kv p.site r
          { s with
            kv := out.2
            probes := s.probes.set i { site := out.1, pc := ProbePC.finished }
            wg := s.wg - 1
            trace := s.trace ++ [Event.putJSON i (GetKey out.1.URL) out.1 (env.putOk i)] }
      | ProbePC.finished => s
      | ProbePC.panicked => s

/-- One step of the goroutine `t`; a goroutine that cannot move leaves the state
as it is, and no goroutine moves once the process has exited. -/
def step (env : Env) (t : Tid) (s : State) : State :=
  if s.crashed then s
  else
    match t with
    | Tid.main => mainStep env s
    | Tid.probe i => probeStep env i s

/-- The state after the goroutines have stepped in the order `sched`. -/
def exec (env : Env) (sched : List Tid) (s : State) : State :=
  sched.foldl (fun st t => step env t st) s

/-- The state at the entry of `m.StartMonitoring()` over the store `kv`. -/
def startOf (m : Monitor) (kv : KVData) : State :=
  { m := m, kv := kv, pc := MainPC.start, probes := [], wg := 0, trace := [],
    crashed := false }

/-- The cron task of `main.go`, lines 121-132: when `cron.NewEvent` fails the task
returns its error; otherwise it builds a new monitor over the shared store and
calls `StartMonitoring` on it. -/
def cronTask (eventOk : Bool) (kv : KVData) : Option State :=
  if eventOk then some (startOf NewMonitor kv) else none

/-- The state at the entry of `m.checkWebsites()` over the store `kv`. -/
def checkWebsitesEntry (m : Monitor) (kv : KVData) : State :=
  { m := m, kv := kv, pc := MainPC.list, probes := [], wg := 0, trace := [],
    crashed := false }

/-! ### Observations on a state -/

/-- The records the scan read successfully, in scan order. -/
def okReads (trace : List Event) : List Website :=
  trace.filterMap fun e =>
    match e with
    | Event.getJSON _ (some w) => some w
    | _ => none

/-- The keys the scan asked the store for, in scan order. -/
def readKeys (trace : List Event) : List String :=
  trace.filterMap fun e =>
    match e with
    | Event.getJSON key _ => some key
    | _ => none

/-- Number of probe attempts (fetches of `checkWebsite`). -/
def probeCount (trace : List Event) : Nat :=
  trace.countP fun e =>
    match e with
    | Event.probe _ _ => true
    | _ => false

/-- Number of write attempts (puts of `updateStatus`). -/
def putCount (trace : List Event) : Nat :=
  trace.countP fun e =>
    match e with
    | Event.putJSON _ _ _ _ => true
    | _ => false

/-- The records for which the scan started a probe goroutine, in start order. -/
def startedSites (trace : List Event) : List Website :=
  trace.filterMap fun e =>
    match e with
    | Event.start _ w => some w
    | _ => none

/-- The probe goroutine has not yet reached its `wg.Done()`. -/
def Probe.running (p : Probe) : Bool :=
  match p.pc with
  | ProbePC.finished => false
  | ProbePC.panicked => false
  | _ => true

/-- The probe goroutine has made its fetch. -/
def Probe.hasFetched (p : Probe) : Bool :=
  match p.pc with
  | ProbePC.ready => false
  | _ => true

/-- The probe goroutine has made its put and its `wg.Done()`. -/
def Probe.isFinished (p : Probe) : Bool :=
  match p.pc with
  | ProbePC.finished => true
  | _ => false

/-- Steps a probe goroutine still has to make. -/
def Probe.work (p : Probe) : Nat :=
  match p.pc with
  | ProbePC.ready => 2
  | ProbePC.fetched _ => 1
  | ProbePC.finished => 0
  | ProbePC.panicked => 0

/-- A bound on the steps the main goroutine still has to make, counting two more
for every goroutine it may still start. -/
def pcWork (env : Env) (pc : MainPC) : Nat :=
  match pc with
  | MainPC.start => 3 * (env.listing.getD []).length + 5
  | MainPC.list => 3 * (env.listing.getD []).length + 4
  | MainPC.scan keys => 3 * keys.length + 2
  | MainPC.wait => 1
  | MainPC.returned => 0

/-- A bound on the steps left in the cycle. -/
def work (env : Env) (s : State) : Nat :=
  pcWork env s.pc + (s.probes.map Probe.work).sum

/-- Every record of the store sits under the key derived from its own URL. -/
def WellKeyed (kv : KVData) : Prop :=
  ∀ key w, kv key = some (Stored.record w) → key = GetKey w.URL

/-- The URLs the probe goroutines fetched, in fetch order. -/
def probedUrls (trace : List Event) : List String :=
  trace.filterMap fun e =>
    match e with
    | Event.probe _ url => some url
    | _ => none

/-- What holds during a scan over the listing `keys` of a store `d0` whose records
sit under their own keys, when no key is listed twice: `done` are the keys
visited so far and `rest` those to come. Goroutines write under visited keys
only, so the scan reads every key as `d0` holds it. -/
structure ScanInv (d0 : KVData) (keys : List String) (s : State) : Prop where
  wellKeyed : WellKeyed s.kv
  phase : ∃ done rest, keys = done ++ rest
    ∧ ((s.pc = MainPC.list ∧ done = []) ∨ s.pc = MainPC.scan rest
        ∨ (rest = [] ∧ (s.pc = MainPC.wait ∨ s.pc = MainPC.returned)))
    ∧ readKeys s.trace = done
    ∧ okReads s.trace = done.filterMap (GetJSON d0)
    ∧ (∀ k, k ∉ done → s.kv k = d0 k)
    ∧ (∀ p ∈ s.probes, GetKey p.site.URL ∈ done)

/-- The scan of `checkWebsites` is over: the main goroutine is at `wg.Wait()` or
has returned. -/
def scanDone (s : State) : Prop :=
  s.pc = MainPC.wait ∨ s.pc = MainPC.returned

instance (s : State) : Decidable (scanDone s) := by
  unfold scanDone; infer_instance

/-- No fetch of the environment panics: every `cli.Do` returns. -/
def NoThrow (env : Env) : Prop :=
  ∀ i url, env.fetch i url ≠ none

/-- The process is running. -/
structure LiveInv (s : State) : Prop where
  alive : s.crashed = false

/-- Steps the main goroutine needs to reach `wg.Wait()` when it runs alone. -/
def scanWork (env : Env) (pc : MainPC) : Nat :=
  match pc with
  | MainPC.start => (env.listing.getD []).length + 3
  | MainPC.list => (env.listing.getD []).length + 2
  | MainPC.scan keys => keys.length + 1
  | MainPC.wait => 0
  | MainPC.returned => 0

/-- A successful put to `key` is in the trace. -/
def writtenIn (trace : List Event) (key : String) : Bool :=
  trace.any fun e =>
    match e with
    | Event.putJSON _ k _ ok => ok && k == key
    | _ => false

/-- Bookkeeping that every step of the cycle keeps: the `WaitGroup` counter is the
number of running probe goroutines, the probe and put events are those of the
goroutines that made them, and the goroutines started are the due records among
those read. -/
structure CountInv (now : Int) (s : State) : Prop where
  wg_eq : s.wg = s.probes.countP Probe.running
  probe_eq : probeCount s.trace = s.probes.countP Probe.hasFetched
  put_eq : putCount s.trace = s.probes.countP Probe.isFinished
  started_eq : startedSites s.trace = (okReads s.trace).filter (isDue now)
  started_len : (startedSites s.trace).length = s.probes.length
  early : s.pc = MainPC.start ∨ s.pc = MainPC.list → s.probes = [] ∧ s.trace = []
  ret : s.pc = MainPC.returned → s.wg = 0

/-- Once `checkWebsites` has returned every probe goroutine has finished, and a
panicked goroutine means the process is gone. -/
structure PanicInv (s : State) : Prop where
  ret_finished : s.pc = MainPC.returned → ∀ p ∈ s.probes, p.pc = ProbePC.finished
  panic_crashed : ∀ p ∈ s.probes, p.pc = ProbePC.panicked → s.crashed = true

/-! ## `src/handlers/website.go` -/

/-- Source `WebsiteHandler.CreateWebsite`, lines 26-88. `body` is the decoded request
(`none` when decoding fails), `now` is `time.Now().Unix()`, `putOk` the store's
answer to the put. Returns the HTTP status of the reply and the store. -/
def CreateWebsite (now : Int) (putOk : Bool) (kv : KVData)
    (body : Option CreateWebsiteRequest) : Nat × KVData :=
  match body with
  | none => (400, kv)
  | some req =>
      if req.URL = "" then (400, kv)
      else
        let req : CreateWebsiteRequest :=
          if req.Frequency ≤ 60 then { req with Frequency := 60 } else req
        let key := GetKey req.URL
        match GetJSON kv key with
        | some _ => (409, kv)
        | none =>
            let website : Website :=
              { URL := req.URL
                Frequency := req.Frequency
                CreatedAt := now
                Status := StatusUnknown
                LastCheckedAt := 0
                ResponseTime := -1
                StatusCode := -1
                Error := "" }
            let r := PutJSON putOk kv key website
            if r.2 then (201, r.1) else (500, r.1)

/-- Source `WebsiteHandler.UpdateWebsite`, lines 110-151. The record takes the
request's frequency on line 132; the clamp of lines 133-135 then changes the
request, which is not read again. -/
def UpdateWebsite (putOk : Bool) (kv : KVData) (url : String)
    (body : Option CreateWebsiteRequest) : Nat × KVData :=
  let key := GetKey url
  match GetJSON kv key with
  | none => (404, kv)
  | some website =>
      match body with
      | none => (400, kv)
      | some req =>
          let website : Website := { website with Frequency := req.Frequency }
          let _req : CreateWebsiteRequest :=
            if req.Frequency ≤ 60 then { req with Frequency := 60 } else req
          let r := PutJSON putOk kv key website
          if r.2 then (200, r.1) else (500, r.1)

/-- The probe goroutines are those the scan started, with the URLs of the records
it started them for, and the fetches made are those of the goroutines past their
fetch. -/
structure ProbedInv (s : State) : Prop where
  urls_eq : s.probes.map (fun p => p.site.URL) = (startedSites s.trace).map (fun w => w.URL)
  probed_perm : (probedUrls s.trace).Perm
    ((s.probes.filter Probe.hasFetched).map (fun p => p.site.URL))

/-- What holds during a cycle over a store `d0` in which no listed record is due:
the store is untouched, no goroutine exists, and the trace is the listing call
followed by one read per visited key. -/
structure QuietInv (d0 : KVData) (keys : List String) (s : State) : Prop where
  kv_eq : s.kv = d0
  no_probes : s.probes = []
  phase : ∃ done rest, keys = done ++ rest
    ∧ ((s.pc = MainPC.list ∧ done = [] ∧ s.trace = [])
        ∨ ((s.pc = MainPC.scan rest
              ∨ (rest = [] ∧ (s.pc = MainPC.wait ∨ s.pc = MainPC.returned)))
            ∧ s.trace = Event.list "websites_" 1000
                :: done.map (fun k => Event.getJSON k (GetJSON d0 k))))

/-! ## Example data -/

/-- A record as `CreateWebsite` stores it: never checked, interval 60. -/
def siteA : Website :=
  { URL := "https://a.test", Frequency := 60, LastCheckedAt := 0, CreatedAt := 1000,
    Status := StatusUnknown, ResponseTime := -1, StatusCode := -1, Error := "" }

/-- A store holding `siteA` under its key. -/
def storeA : KVData :=
  fun k => if k = "websites_https://a.test" then some (Stored.record siteA) else none

/-- A cycle at instant 2000 whose listing returns the key of `siteA`; the fetch
answers 200 after 35 ms, the write-back happens at 2001 and succeeds. -/
def envA : Env :=
  { listing := some ["websites_https://a.test"]
    now := 2000
    fetch := fun _ _ => some (FetchResult.response 200 35)
    clock := fun _ => 2001
    putOk := fun _ => true }

/-- Number of due records among those the scan read: the size of the due set. -/
def dueCount (now : Int) (trace : List Event) : Nat :=
  ((okReads trace).filter (isDue now)).length

/-- Checked at 1941, interval 60: at instant 2000 only 59 seconds have passed. -/
def siteB : Website :=
  { URL := "https://b.test", Frequency := 60, LastCheckedAt := 1941, CreatedAt := 1000,
    Status := StatusUp, ResponseTime := 20, StatusCode := 200, Error := "" }

/-- Checked at 1940, interval 60: at instant 2000 exactly 60 seconds have passed. -/
def siteC : Website :=
  { URL := "https://c.test", Frequency := 60, LastCheckedAt := 1940, CreatedAt := 1000,
    Status := StatusUp, ResponseTime := 20, StatusCode := 200, Error := "" }

/-- A store with `siteA`, `siteB`, `siteC` under their keys and a value that does
not decode under `websites_bad`. -/
def storeABC : KVData :=
  fun k =>
    if k = "websites_https://a.test" then some (Stored.record siteA)
    else if k = "websites_https://b.test" then some (Stored.record siteB)
    else if k = "websites_https://c.test" then some (Stored.record siteC)
    else if k = "websites_bad" then some (Stored.malformed "not json")
    else none

/-- A cycle at instant 2000 over the four keys of `storeABC`. -/
def envABC : Env :=
  { listing := some ["websites_bad", "websites_https://a.test", "websites_https://b.test",
      "websites_https://c.test"]
    now := 2000
    fetch := fun _ _ => some (FetchResult.response 200 35)
    clock := fun _ => 2001
    putOk := fun _ => true }

/-- A complete schedule for `envABC`: the scan, the two probes, the join. -/
def schedABC : List Tid :=
  [Tid.main, Tid.main, Tid.main, Tid.probe 0, Tid.main, Tid.main, Tid.probe 1, Tid.main,
    Tid.probe 1, Tid.probe 0, Tid.main]

/-- The environment `env` with the listing answering `keys`. -/
def withListing (env : Env) (keys : List String) : Env :=
  { env with listing := some keys }

/-- The keys of `keys` whose value in `kv` reads as a record. -/
def readableKeys (kv : KVData) (keys : List String) : List String :=
  keys.filter fun k => (GetJSON kv k).isSome

/-- A complete schedule for `envABC` without the key `websites_bad`. -/
def schedABC' : List Tid :=
  [Tid.main, Tid.main, Tid.main, Tid.main, Tid.main, Tid.probe 1, Tid.probe 0, Tid.probe 0,
    Tid.probe 1, Tid.main]

/-- A store holding only `siteB`, which is not due at instant 2000. -/
def storeB : KVData :=
  fun k => if k = "websites_https://b.test" then some (Stored.record siteB) else none

/-- A cycle at instant 2000 whose listing returns the key of `siteB`. -/
def envB : Env :=
  { listing := some ["websites_https://b.test"]
    now := 2000
    fetch := fun _ _ => some (FetchResult.response 200 35)
    clock := fun _ => 2001
    putOk := fun _ => true }

/-- The cycle of `envABC` when every fetch fails with a transport error. -/
def envRefused : Env :=
  { envABC with fetch := fun _ _ => some (FetchResult.transportError "connection refused" 12) }

/-- The cycle of `envABC` when every put fails. -/
def envPutFails : Env :=
  { envABC with putOk := fun _ => false }

/-- What holds during every scan over the listing `keys`: `done` are the keys
visited so far, in order, and `rest` those to come; the scan has asked the store
for each visited key once. -/
structure VisitInv (keys : List String) (s : State) : Prop where
  phase : ∃ done rest, keys = done ++ rest
    ∧ ((s.pc = MainPC.list ∧ done = []) ∨ s.pc = MainPC.scan rest
        ∨ (rest = [] ∧ (s.pc = MainPC.wait ∨ s.pc = MainPC.returned)))
    ∧ readKeys s.trace = done

/-- A record with the scheme-less URL `a.test`, as `CreateWebsite` stores it: Go
parses the URL, the JavaScript `Request` constructor rejects it. -/
def siteNoScheme : Website :=
  { URL := "a.test", Frequency := 60, LastCheckedAt := 0, CreatedAt := 1000,
    Status := StatusUnknown, ResponseTime := -1, StatusCode := -1, Error := "" }

/-- A store with `siteNoScheme` and `siteC` under their keys. -/
def storeCrash : KVData :=
  fun k =>
    if k = "websites_a.test" then some (Stored.record siteNoScheme)
    else if k = "websites_https://c.test" then some (Stored.record siteC)
    else none

/-- A cycle at instant 2000 over `storeCrash`: the fetch of `a.test` panics, any
other fetch answers 200. -/
def envCrash : Env :=
  { listing := some ["websites_a.test", "websites_https://c.test"]
    now := 2000
    fetch := fun _ url => if url = "a.test" then none else some (FetchResult.response 200 35)
    clock := fun _ => 2001
    putOk := fun _ => true }

/-- A record whose last check is the least `int64`. -/
def siteOld : Website :=
  { URL := "https://old.test", Frequency := 60, LastCheckedAt := -9223372036854775808,
    CreatedAt := 1000, Status := StatusUp, ResponseTime := 20, StatusCode := 200, Error := "" }

/-- A store holding only `siteOld`. -/
def storeOld : KVData :=
  fun k => if k = "websites_https://old.test" then some (Stored.record siteOld) else none

/-- A cycle at instant 2000 whose listing returns the key of `siteOld`. -/
def envOld : Env :=
  { listing := some ["websites_https://old.test"]
    now := 2000
    fetch := fun _ _ => some (FetchResult.response 200 35)
    clock := fun _ => 2001
    putOk := fun _ => true }

/-! ## Theorems -/

theorem updateStatus_status_eq (clock : Int) (putOk : Bool) (kv : KVData)
    (w : Website) (statusCode responseTime : Int) (errorMsg : String) :
    (updateStatus clock putOk kv w statusCode responseTime errorMsg).1.Status
      = classifySpec errorMsg statusCode := by
  unfold updateStatus classifySpec StatusDown StatusDegraded StatusUp StatusUnknown
  by_cases h : errorMsg = ""
  · by_cases h5 : statusCode ≥ 500
    · simp [h, h5]
    · by_cases h4 : statusCode ≥ 400
      · have : statusCode < 500 := by omega
        simp [h, h5, h4, this]
      · by_cases h2 : statusCode ≥ 200 ∧ statusCode < 300
        · simp [h, h5, h4, h2]
        · have h4' : ¬ (400 ≤ statusCode ∧ statusCode < 500) := by omega
          simp [h, h5, h4, h2, h4']
  · simp [h]

/-! ### Bookkeeping lemmas -/

theorem countP_set_of_get? {α : Type} (p : α → Bool) :
    ∀ (l : List α) (i : Nat) (a b : α), l.get? i = some b →
      (l.set i a).countP p + (if p b then 1 else 0)
        = l.countP p + (if p a then 1 else 0) := by
  intro l
  induction l with
  | nil => intro i a b h; simp at h
  | cons x xs ih =>
    intro i a b h
    cases i with
    | zero =>
      simp only [List.get?_cons_zero, Option.some.injEq] at h
      subst h
      simp only [List.set_cons_zero, List.countP_cons]
      omega
    | succ j =>
      simp only [List.get?_cons_succ] at h
      have := ih j a b h
      simp only [List.set_cons_succ, List.countP_cons]
      omega

theorem countInv_entry (now : Int) (m : Monitor) (kv : KVData) :
    CountInv now (checkWebsitesEntry m kv) := by
  constructor <;> simp [checkWebsitesEntry, probeCount, putCount, startedSites, okReads]

theorem countInv_startOf (now : Int) (m : Monitor) (kv : KVData) :
    CountInv now (startOf m kv) := by
  constructor <;> simp [startOf, probeCount, putCount, startedSites, okReads]

theorem countInv_mainStep (env : Env) (s : State) (h : CountInv env.now s) :
    CountInv env.now (mainStep env s) := by
  obtain ⟨h1, h2, h3, h4, h5, h6, h7⟩ := h
  unfold mainStep
  split
  · -- start
    rename_i hpc
    have he := h6 (Or.inl hpc)
    split
    · constructor <;> simp_all
    · constructor <;> simp_all
  · -- list
    rename_i hpc
    have he := h6 (Or.inr hpc)
    split
    · constructor <;> simp_all [probeCount, putCount, startedSites, okReads]
    · split
      · constructor <;> simp_all [probeCount, putCount, startedSites, okReads]
      · constructor <;> simp_all [probeCount, putCount, startedSites, okReads]
  · -- scan []
    rename_i hpc
    constructor <;> simp_all
  · -- scan (key :: rest)
    rename_i key rest hpc
    unfold scanKey
    split
    · constructor <;>
        simp_all [probeCount, putCount, startedSites, okReads, List.countP_append]
    · rename_i w hw
      split
      · rename_i hdue
        constructor <;>
          simp_all [probeCount, putCount, startedSites, okReads, List.countP_append,
            List.filterMap_append, List.filter_append, Probe.running, Probe.hasFetched,
            Probe.isFinished]
      · rename_i hdue
        constructor <;>
          simp_all [probeCount, putCount, startedSites, okReads, List.countP_append,
            List.filterMap_append, List.filter_append]
  · -- wait
    rename_i hpc
    split
    · constructor <;> simp_all
    · exact ⟨h1, h2, h3, h4, h5, h6, h7⟩
  · exact ⟨h1, h2, h3, h4, h5, h6, h7⟩

theorem countInv_fetch (now : Int) (s : State) (i : Nat) (p : Probe) (r : FetchResult)
    (hp : s.probes.get? i = some p) (hpc : p.pc = ProbePC.ready) (h : CountInv now s) :
    CountInv now { s with
      probes := s.probes.set i { p with pc := ProbePC.fetched r }
      trace := s.trace ++ [Event.probe i p.site.URL] } := by
  obtain ⟨h1, h2, h3, h4, h5, h6, h7⟩ := h
  have hne : s.probes ≠ [] := by
    intro hnil
    rw [hnil] at hp
    simp at hp
  have hearly : ¬ (s.pc = MainPC.start ∨ s.pc = MainPC.list) := fun hc => hne (h6 hc).1
  have hr := countP_set_of_get? Probe.running s.probes i
    { p with pc := ProbePC.fetched r } p hp
  have hf := countP_set_of_get? Probe.hasFetched s.probes i
    { p with pc := ProbePC.fetched r } p hp
  have hd := countP_set_of_get? Probe.isFinished s.probes i
    { p with pc := ProbePC.fetched r } p hp
  simp only [Probe.running, Probe.hasFetched, Probe.isFinished, hpc, Bool.false_eq_true,
    if_true, if_false] at hr hf hd
  constructor
  · simp only; omega
  · simp only [probeCount, List.countP_append] at h2 ⊢
    simp
    omega
  · simp only [putCount, List.countP_append] at h3 ⊢
    simp
    omega
  · simpa [startedSites, okReads, List.filterMap_append] using h4
  · simpa [startedSites, List.filterMap_append] using h5
  · intro hc; exact absurd hc hearly
  · intro hc; exact h7 hc

theorem countInv_panic (now : Int) (s : State) (i : Nat) (p : Probe)
    (hp : s.probes.get? i = some p) (hpc : p.pc = ProbePC.ready) (h : CountInv now s) :
    CountInv now { s with
      crashed := true
      probes := s.probes.set i { p with pc := ProbePC.panicked }
      wg := s.wg - 1
      trace := s.trace ++ [Event.probe i p.site.URL] } := by
  obtain ⟨h1, h2, h3, h4, h5, h6, h7⟩ := h
  have hne : s.probes ≠ [] := by
    intro hnil
    rw [hnil] at hp
    simp at hp
  have hearly : ¬ (s.pc = MainPC.start ∨ s.pc = MainPC.list) := fun hc => hne (h6 hc).1
  have hr := countP_set_of_get? Probe.running s.probes i
    { p with pc := ProbePC.panicked } p hp
  have hf := countP_set_of_get? Probe.hasFetched s.probes i
    { p with pc := ProbePC.panicked } p hp
  have hd := countP_set_of_get? Probe.isFinished s.probes i
    { p with pc := ProbePC.panicked } p hp
  simp only [Probe.running, Probe.hasFetched, Probe.isFinished, hpc, Bool.false_eq_true,
    if_true, if_false] at hr hf hd
  constructor
  · simp only; omega
  · simp only [probeCount, List.countP_append] at h2 ⊢
    simp
    omega
  · simp only [putCount, List.countP_append] at h3 ⊢
    simp
    omega
  · simpa [startedSites, okReads, List.filterMap_append] using h4
  · simpa [startedSites, List.filterMap_append] using h5
  · intro hc; exact absurd hc hearly
  · intro hc
    have := h7 hc
    simp only
    omega

theorem countInv_probeStep (env : Env) (i : Nat) (s : State) (h : CountInv env.now s) :
    CountInv env.now (probeStep env i s) := by
  unfold probeStep
  split
  · exact h
  · rename_i p hp
    split
    · -- ready: the fetch
      rename_i hpc
      split
      · exact countInv_panic env.now s i p hp hpc h
      · rename_i r hr
        exact countInv_fetch env.now s i p r hp hpc h
    · -- fetched: updateStatus and wg.Done()
      rename_i r hpc
      obtain ⟨h1, h2, h3, h4, h5, h6, h7⟩ := h
      have hne : s.probes ≠ [] := by
        intro hnil
        rw [hnil] at hp
        simp at hp
      have hearly : ¬ (s.pc = MainPC.start ∨ s.pc = MainPC.list) := fun hc => hne (h6 hc).1
      have hr := countP_set_of_get? Probe.running s.probes i
        { site := (checkWebsite (env.clock i) (env.putOk i) s.kv p.site r).1,
          pc := ProbePC.finished } p hp
      have hf := countP_set_of_get? Probe.hasFetched s.probes i
        { site := (checkWebsite (env.clock i) (env.putOk i) s.kv p.site r).1,
          pc := ProbePC.finished } p hp
      have hd := countP_set_of_get? Probe.isFinished s.probes i
        { site := (checkWebsite (env.clock i) (env.putOk i) s.kv p.site r).1,
          pc := ProbePC.finished } p hp
      simp only [Probe.running, Probe.hasFetched, Probe.isFinished, hpc, Bool.false_eq_true,
        if_true, if_false] at hr hf hd
      constructor
      · simp only; omega
      · simp only [probeCount, List.countP_append] at h2 ⊢
        simp
        omega
      · simp only [putCount, List.countP_append] at h3 ⊢
        simp
        omega
      · simpa [startedSites, okReads, List.filterMap_append] using h4
      · simpa [startedSites, List.filterMap_append] using h5
      · intro hc; exact absurd hc hearly
      · intro hc
        have := h7 hc
        simp only
        omega
    · exact h
    · exact h

theorem inv_step {P : State → Prop} (env : Env)
    (hmain : ∀ s, s.crashed = false → P s → P (mainStep env s))
    (hprobe : ∀ i s, s.crashed = false → P s → P (probeStep env i s))
    (t : Tid) (s : State) (h : P s) : P (step env t s) := by
  unfold step
  cases hc : s.crashed with
  | true => simpa using h
  | false =>
    cases t with
    | main => simpa using hmain s hc h
    | probe i => simpa using hprobe i s hc h

theorem inv_exec {P : State → Prop} (env : Env)
    (hmain : ∀ s, s.crashed = false → P s → P (mainStep env s))
    (hprobe : ∀ i s, s.crashed = false → P s → P (probeStep env i s))
    (sched : List Tid) : ∀ s : State, P s → P (exec env sched s) := by
  induction sched with
  | nil => intro s h; exact h
  | cons t ts ih =>
    intro s h
    exact ih _ (inv_step env hmain hprobe t s h)

theorem countInv_step (env : Env) (t : Tid) (s : State) (h : CountInv env.now s) :
    CountInv env.now (step env t s) :=
  inv_step env (fun s _ h => countInv_mainStep env s h)
    (fun i s _ h => countInv_probeStep env i s h) t s h

theorem countInv_exec (env : Env) (sched : List Tid) :
    ∀ s : State, CountInv env.now s → CountInv env.now (exec env sched s) :=
  inv_exec env (fun s _ h => countInv_mainStep env s h)
    (fun i s _ h => countInv_probeStep env i s h) sched

theorem finished_or_panicked_of_countP_running_eq_zero :
    ∀ (l : List Probe), l.countP Probe.running = 0 →
      ∀ p ∈ l, p.pc = ProbePC.finished ∨ p.pc = ProbePC.panicked := by
  intro l
  induction l with
  | nil => intro _ p hp; simp at hp
  | cons x xs ih =>
    intro h p hp
    have hx : x.running = false := by
      by_contra hc
      simp [List.countP_cons, hc] at h
    have hxs : xs.countP Probe.running = 0 := by
      simpa [List.countP_cons, hx] using h
    rcases List.mem_cons.mp hp with rfl | hp
    · unfold Probe.running at hx
      split at hx
      · left; assumption
      · right; assumption
      · simp at hx
    · exact ih hxs p hp

theorem panicInv_entry (m : Monitor) (kv : KVData) : PanicInv (checkWebsitesEntry m kv) := by
  constructor <;> simp [checkWebsitesEntry]

theorem panicInv_startOf (m : Monitor) (kv : KVData) : PanicInv (startOf m kv) := by
  constructor <;> simp [startOf]

theorem panicInv_mainStep (env : Env) (s : State) (hc : s.crashed = false)
    (hcount : CountInv env.now s) (h : PanicInv s) : PanicInv (mainStep env s) := by
  obtain ⟨h1, h2⟩ := h
  have hnone : ∀ p ∈ s.probes, p.pc ≠ ProbePC.panicked := by
    intro p hp hpp
    have := h2 p hp hpp
    rw [hc] at this
    exact absurd this (by simp)
  unfold mainStep
  split
  · rename_i hpc
    have he := (hcount.early (Or.inl hpc)).1
    split
    · constructor
      · intro _ p hp
        rw [he] at hp
        simp at hp
      · exact h2
    · constructor
      · intro hr; simp at hr
      · exact h2
  · rename_i hpc
    have he := (hcount.early (Or.inr hpc)).1
    have hvac : ∀ p ∈ s.probes, p.pc = ProbePC.finished := by
      intro p hp
      rw [he] at hp
      simp at hp
    split
    · exact ⟨fun _ => hvac, h2⟩
    · split
      · exact ⟨fun _ => hvac, h2⟩
      · exact ⟨fun hr => by simp at hr, h2⟩
  · exact ⟨fun hr => by simp at hr, h2⟩
  · unfold scanKey
    split
    · exact ⟨fun hr => by simp at hr, h2⟩
    · split
      · refine ⟨fun hr => by simp at hr, ?_⟩
        intro p hp hpp
        simp only [List.mem_append, List.mem_singleton] at hp
        rcases hp with hp | hp
        · exact h2 p hp hpp
        · subst hp
          simp at hpp
      · exact ⟨fun hr => by simp at hr, h2⟩
  · rename_i hpc
    split
    · rename_i hwg
      refine ⟨fun _ p hp => ?_, h2⟩
      have hrun : s.probes.countP Probe.running = 0 := by
        rw [← hcount.wg_eq]; exact hwg
      rcases finished_or_panicked_of_countP_running_eq_zero s.probes hrun p hp with hf | hf
      · exact hf
      · exact absurd hf (hnone p hp)
    · exact ⟨h1, h2⟩
  · exact ⟨h1, h2⟩

theorem panicInv_probeStep (env : Env) (i : Nat) (s : State) (h : PanicInv s) :
    PanicInv (probeStep env i s) := by
  obtain ⟨h1, h2⟩ := h
  unfold probeStep
  split
  · exact ⟨h1, h2⟩
  · rename_i p hp
    have hmem : p ∈ s.probes := List.get?_mem hp
    split
    · rename_i hpc
      have hnr : s.pc ≠ MainPC.returned := by
        intro hr
        have := h1 hr p hmem
        rw [hpc] at this
        exact absurd this (by simp)
      split
      · exact ⟨fun hr => absurd hr hnr, fun _ _ _ => rfl⟩
      · refine ⟨fun hr => absurd hr hnr, ?_⟩
        intro q hq hqp
        rcases List.mem_or_eq_of_mem_set hq with hq | hq
        · exact h2 q hq hqp
        · subst hq
          simp at hqp
    · rename_i r hpc
      have hnr : s.pc ≠ MainPC.returned := by
        intro hr
        have := h1 hr p hmem
        rw [hpc] at this
        exact absurd this (by simp)
      refine ⟨fun hr => absurd hr hnr, ?_⟩
      intro q hq hqp
      rcases List.mem_or_eq_of_mem_set hq with hq | hq
      · exact h2 q hq hqp
      · subst hq
        simp at hqp
    · exact ⟨h1, h2⟩
    · exact ⟨h1, h2⟩

theorem countPanicInv_exec (env : Env) (sched : List Tid) :
    ∀ s : State, CountInv env.now s ∧ PanicInv s →
      CountInv env.now (exec env sched s) ∧ PanicInv (exec env sched s) :=
  inv_exec env
    (fun s hc h => ⟨countInv_mainStep env s h.1, panicInv_mainStep env s hc h.1 h.2⟩)
    (fun i s _ h => ⟨countInv_probeStep env i s h.1, panicInv_probeStep env i s h.2⟩) sched

theorem panicInv_exec (env : Env) (sched : List Tid) (m : Monitor) (kv : KVData) :
    PanicInv (exec env sched (checkWebsitesEntry m kv)) :=
  (countPanicInv_exec env sched _ ⟨countInv_entry env.now m kv, panicInv_entry m kv⟩).2

/-! ### The cycle can always be completed -/

theorem sum_map_set_of_get? {α : Type} (f : α → Nat) :
    ∀ (l : List α) (i : Nat) (a b : α), l.get? i = some b →
      ((l.set i a).map f).sum + f b = (l.map f).sum + f a := by
  intro l
  induction l with
  | nil => intro i a b h; simp at h
  | cons x xs ih =>
    intro i a b h
    cases i with
    | zero =>
      simp only [List.get?_cons_zero, Option.some.injEq] at h
      subst h
      simp only [List.set_cons_zero, List.map_cons, List.sum_cons]
      omega
    | succ j =>
      simp only [List.get?_cons_succ] at h
      have := ih j a b h
      simp only [List.set_cons_succ, List.map_cons, List.sum_cons]
      omega

theorem exists_running_of_countP_pos :
    ∀ (l : List Probe), 0 < l.countP Probe.running →
      ∃ i p, l.get? i = some p ∧ p.running = true := by
  intro l
  induction l with
  | nil => intro h; simp at h
  | cons x xs ih =>
    intro h
    by_cases hx : x.running = true
    · exact ⟨0, x, rfl, hx⟩
    · have hpos : 0 < xs.countP Probe.running := by
        simpa [List.countP_cons, hx] using h
      obtain ⟨i, p, hi, hp⟩ := ih hpos
      exact ⟨i + 1, p, by simpa using hi, hp⟩

theorem mainStep_work_lt (env : Env) (s : State)
    (hpc : s.pc ≠ MainPC.returned) (hw : s.pc = MainPC.wait → s.wg = 0) :
    work env (mainStep env s) < work env s := by
  unfold mainStep
  split
  · rename_i h
    split <;> simp [work, pcWork, h]
  · rename_i h
    split
    · simp [work, pcWork, h]
    · rename_i keys hk
      split <;> simp [work, pcWork, h, hk]
  · rename_i h
    simp [work, pcWork, h]
  · rename_i key rest h
    unfold scanKey
    split
    · simp [work, pcWork, h]
    · split
      · simp [work, pcWork, h, Probe.work]
        omega
      · simp [work, pcWork, h]
  · rename_i h
    simp [hw h, work, pcWork, h]
  · rename_i h
    exact absurd h hpc

theorem probeStep_work_lt (env : Env) (i : Nat) (p : Probe) (s : State)
    (hnt : NoThrow env) (hi : s.probes.get? i = some p) (hp : p.running = true) :
    work env (probeStep env i s) < work env s := by
  unfold probeStep
  simp only [hi]
  split
  · rename_i h
    split
    · rename_i hnone
      exact absurd hnone (hnt i p.site.URL)
    · rename_i r hr
      have := sum_map_set_of_get? Probe.work s.probes i
        { p with pc := ProbePC.fetched r } p hi
      simp only [Probe.work, h] at this
      simp only [work]
      omega
  · rename_i r h
    have := sum_map_set_of_get? Probe.work s.probes i
      { site := (checkWebsite (env.clock i) (env.putOk i) s.kv p.site r).1,
        pc := ProbePC.finished } p hi
    simp only [Probe.work, h] at this
    simp only [work]
    omega
  · rename_i h
    simp [Probe.running, h] at hp
  · rename_i h
    simp [Probe.running, h] at hp

theorem step_of_alive (env : Env) (t : Tid) (s : State) (h : s.crashed = false) :
    step env t s
      = match t with
        | Tid.main => mainStep env s
        | Tid.probe i => probeStep env i s := by
  unfold step
  simp [h]

theorem mainStep_crashed (env : Env) (s : State) : (mainStep env s).crashed = s.crashed := by
  unfold mainStep
  split
  · split <;> rfl
  · split
    · rfl
    · split <;> rfl
  · rfl
  · unfold scanKey
    split
    · rfl
    · split <;> rfl
  · split <;> rfl
  · rfl

theorem liveInv_mainStep (env : Env) (s : State) (h : LiveInv s) :
    LiveInv (mainStep env s) :=
  ⟨by rw [mainStep_crashed]; exact h.alive⟩

theorem liveInv_probeStep (env : Env) (hnt : NoThrow env) (i : Nat) (s : State)
    (h : LiveInv s) : LiveInv (probeStep env i s) := by
  obtain ⟨ha⟩ := h
  unfold probeStep
  split
  · exact ⟨ha⟩
  · rename_i p hp
    split
    · split
      · rename_i hnone
        exact absurd hnone (hnt i p.site.URL)
      · exact ⟨ha⟩
    · exact ⟨ha⟩
    · exact ⟨ha⟩
    · exact ⟨ha⟩

theorem liveInv_step (env : Env) (hnt : NoThrow env) (t : Tid) (s : State) (h : LiveInv s) :
    LiveInv (step env t s) :=
  inv_step env (fun s _ h => liveInv_mainStep env s h)
    (fun i s _ h => liveInv_probeStep env hnt i s h) t s h

theorem exists_step_work_lt (env : Env) (hnt : NoThrow env) (s : State)
    (h : CountInv env.now s) (hl : LiveInv s) (hpc : s.pc ≠ MainPC.returned) :
    ∃ t, work env (step env t s) < work env s := by
  by_cases hw : s.pc = MainPC.wait → s.wg = 0
  · refine ⟨Tid.main, ?_⟩
    rw [step_of_alive env Tid.main s hl.alive]
    exact mainStep_work_lt env s hpc hw
  · have hpos : 0 < s.probes.countP Probe.running := by
      have := h.wg_eq
      omega
    obtain ⟨i, p, hi, hp⟩ := exists_running_of_countP_pos s.probes hpos
    refine ⟨Tid.probe i, ?_⟩
    rw [step_of_alive env (Tid.probe i) s hl.alive]
    exact probeStep_work_lt env i p s hnt hi hp

theorem exists_schedule_returned (env : Env) (hnt : NoThrow env) :
    ∀ (n : Nat) (s : State), CountInv env.now s → LiveInv s → work env s ≤ n →
      ∃ sched, (exec env sched s).pc = MainPC.returned
        ∧ (exec env sched s).crashed = false := by
  intro n
  induction n with
  | zero =>
    intro s h hl hn
    by_cases hpc : s.pc = MainPC.returned
    · exact ⟨[], hpc, hl.alive⟩
    · obtain ⟨t, ht⟩ := exists_step_work_lt env hnt s h hl hpc
      omega
  | succ k ih =>
    intro s h hl hn
    by_cases hpc : s.pc = MainPC.returned
    · exact ⟨[], hpc, hl.alive⟩
    · obtain ⟨t, ht⟩ := exists_step_work_lt env hnt s h hl hpc
      obtain ⟨sched, hs⟩ := ih (step env t s) (countInv_step env t s h)
        (liveInv_step env hnt t s hl) (by omega)
      exact ⟨t :: sched, hs⟩

theorem mainStep_scanWork (env : Env) (s : State) :
    scanWork env (mainStep env s).pc ≤ scanWork env s.pc - 1 := by
  unfold mainStep
  split
  · rename_i h
    split <;> simp [scanWork, h]
  · rename_i h
    split
    · simp [scanWork, h]
    · rename_i keys hk
      split <;> simp [scanWork, h, hk]
  · rename_i h
    simp [scanWork, h]
  · rename_i key rest h
    unfold scanKey
    split
    · simp [scanWork, h]
    · split <;> simp [scanWork, h]
  · rename_i h
    split <;> simp [scanWork, h]
  · rename_i h
    simp [scanWork, h]

theorem main_alone_reaches_wait (env : Env) :
    ∀ (n : Nat) (s : State), s.crashed = false → scanWork env s.pc ≤ n →
      (exec env (List.replicate n Tid.main) s).crashed = false
        ∧ ((exec env (List.replicate n Tid.main) s).pc = MainPC.wait
            ∨ (exec env (List.replicate n Tid.main) s).pc = MainPC.returned) := by
  intro n
  induction n with
  | zero =>
    intro s hc hn
    refine ⟨hc, ?_⟩
    show s.pc = MainPC.wait ∨ s.pc = MainPC.returned
    cases hpc : s.pc with
    | start => simp [scanWork, hpc] at hn
    | list => simp [scanWork, hpc] at hn
    | scan keys => simp [scanWork, hpc] at hn
    | wait => exact Or.inl rfl
    | returned => exact Or.inr rfl
  | succ k ih =>
    intro s hc hn
    have hstep : step env Tid.main s = mainStep env s := step_of_alive env Tid.main s hc
    have hw := mainStep_scanWork env s
    have := ih (mainStep env s) (by rw [mainStep_crashed]; exact hc) (by omega)
    simpa [List.replicate_succ, exec, hstep] using this

/-! ### Facts about `updateStatus`, `checkWebsite` and `PutJSON` -/

theorem updateStatus_fields (clock : Int) (putOk : Bool) (kv : KVData) (w : Website)
    (statusCode responseTime : Int) (errorMsg : String) :
    (updateStatus clock putOk kv w statusCode responseTime errorMsg).1.URL = w.URL
    ∧ (updateStatus clock putOk kv w statusCode responseTime errorMsg).1.Frequency = w.Frequency
    ∧ (updateStatus clock putOk kv w statusCode responseTime errorMsg).1.CreatedAt = w.CreatedAt
    ∧ (updateStatus clock putOk kv w statusCode responseTime errorMsg).1.LastCheckedAt = clock
    ∧ (updateStatus clock putOk kv w statusCode responseTime errorMsg).1.ResponseTime
        = responseTime
    ∧ (updateStatus clock putOk kv w statusCode responseTime errorMsg).1.StatusCode = statusCode
    ∧ (updateStatus clock putOk kv w statusCode responseTime errorMsg).1.Error = errorMsg := by
  unfold updateStatus
  simp only
  split_ifs <;> simp

theorem updateStatus_kv (clock : Int) (putOk : Bool) (kv : KVData) (w : Website)
    (statusCode responseTime : Int) (errorMsg : String) :
    (updateStatus clock putOk kv w statusCode responseTime errorMsg).2
      = (PutJSON putOk kv (GetKey w.URL)
          (updateStatus clock putOk kv w statusCode responseTime errorMsg).1).1 := by
  have h := (updateStatus_fields clock putOk kv w statusCode responseTime errorMsg).1
  rw [← h]
  rfl

theorem checkWebsite_url (clock : Int) (putOk : Bool) (kv : KVData) (w : Website)
    (r : FetchResult) : (checkWebsite clock putOk kv w r).1.URL = w.URL := by
  cases r <;> exact (updateStatus_fields _ _ _ _ _ _ _).1

theorem checkWebsite_lastCheckedAt (clock : Int) (putOk : Bool) (kv : KVData) (w : Website)
    (r : FetchResult) : (checkWebsite clock putOk kv w r).1.LastCheckedAt = clock := by
  cases r <;> exact (updateStatus_fields _ _ _ _ _ _ _).2.2.2.1

theorem checkWebsite_kv (clock : Int) (putOk : Bool) (kv : KVData) (w : Website)
    (r : FetchResult) :
    (checkWebsite clock putOk kv w r).2
      = (PutJSON putOk kv (GetKey w.URL) (checkWebsite clock putOk kv w r).1).1 := by
  cases r <;> exact updateStatus_kv _ _ _ _ _ _ _

theorem PutJSON_other (ok : Bool) (kv : KVData) (key : String) (w : Website) (k : String)
    (h : k ≠ key) : (PutJSON ok kv key w).1 k = kv k := by
  unfold PutJSON
  split <;> simp [h]

theorem PutJSON_failed (kv : KVData) (key : String) (w : Website) :
    (PutJSON false kv key w).1 = kv := by
  simp [PutJSON]

theorem PutJSON_same (kv : KVData) (key : String) (w : Website) :
    (PutJSON true kv key w).1 key = some (Stored.record w) := by
  simp [PutJSON]

theorem PutJSON_wellKeyed (ok : Bool) (kv : KVData) (w : Website) (h : WellKeyed kv) :
    WellKeyed (PutJSON ok kv (GetKey w.URL) w).1 := by
  intro key v hv
  by_cases hk : key = GetKey w.URL
  · cases ok with
    | false => rw [PutJSON_failed] at hv; exact h key v hv
    | true =>
      subst hk
      rw [PutJSON_same] at hv
      simp only [Option.some.injEq, Stored.record.injEq] at hv
      rw [← hv]
  · rw [PutJSON_other ok kv _ w key hk] at hv
    exact h key v hv

theorem GetJSON_eq_some {kv : KVData} {key : String} {w : Website}
    (h : GetJSON kv key = some w) : kv key = some (Stored.record w) := by
  unfold GetJSON at h
  split at h
  · rename_i w' hw
    simp only [Option.some.injEq] at h
    rw [hw, h]
  · simp at h

theorem GetJSON_congr {kv kv' : KVData} {key : String} (h : kv key = kv' key) :
    GetJSON kv key = GetJSON kv' key := by
  unfold GetJSON
  rw [h]

/-! ### The scan reads the store as it was at the start -/

theorem scanInv_entry (d0 : KVData) (keys : List String) (m : Monitor)
    (hwk : WellKeyed d0) : ScanInv d0 keys (checkWebsitesEntry m d0) := by
  refine ⟨hwk, [], keys, rfl, Or.inl ⟨rfl, rfl⟩, ?_, ?_, ?_, ?_⟩ <;>
    simp [checkWebsitesEntry, readKeys, okReads]

theorem scanInv_mainStep (env : Env) (d0 : KVData) (keys : List String)
    (hl : env.listing = some keys) (hnd : keys.Nodup) (s : State)
    (h : ScanInv d0 keys s) : ScanInv d0 keys (mainStep env s) := by
  obtain ⟨hwk, done, rest, hk, hph, hrk, hok, hkv, hpr⟩ := h
  unfold mainStep
  split
  · -- start: not a position of `checkWebsites`
    rename_i hpc
    simp [hpc] at hph
  · -- list
    rename_i hpc
    simp only [hl]
    have hdone : done = [] := by
      rcases hph with h | h | h
      · exact h.2
      · simp [hpc] at h
      · simp [hpc] at h
    subst hdone
    simp only [List.nil_append] at hk
    split
    · rename_i hlen
      have hrest : rest = [] := by
        rw [← hk]; exact List.length_eq_zero.mp hlen
      refine ⟨hwk, [], rest, hk, Or.inr (Or.inr ⟨hrest, Or.inr rfl⟩), ?_, ?_, hkv, hpr⟩
      · simpa [readKeys, List.filterMap_append] using hrk
      · simpa [okReads, List.filterMap_append] using hok
    · refine ⟨hwk, [], rest, hk, Or.inr (Or.inl (by rw [hk])), ?_, ?_, hkv, hpr⟩
      · simpa [readKeys, List.filterMap_append] using hrk
      · simpa [okReads, List.filterMap_append] using hok
  · -- scan []
    rename_i hpc
    have hrest : rest = [] := by
      rcases hph with h | h | h
      · simp [hpc] at h
      · rw [hpc] at h; injection h with h; exact h.symm
      · exact h.1
    exact ⟨hwk, done, rest, hk, Or.inr (Or.inr ⟨hrest, Or.inl rfl⟩), hrk, hok, hkv, hpr⟩
  · -- scan (key :: rest')
    rename_i key rest' hpc
    have hrest : rest = key :: rest' := by
      rcases hph with h | h | h
      · simp [hpc] at h
      · rw [hpc] at h; injection h with h; exact h.symm
      · simp [hpc] at h
    subst hrest
    have hnot : key ∉ done := by
      rw [hk] at hnd
      intro hmem
      have := (List.nodup_append.mp hnd).2.2
      exact this hmem (List.mem_cons_self _ _)
    have hread : GetJSON s.kv key = GetJSON d0 key := GetJSON_congr (hkv key hnot)
    have hk' : keys = (done ++ [key]) ++ rest' := by simp [hk]
    have hkv' : ∀ k, k ∉ done ++ [key] → s.kv k = d0 k := by
      intro k hk0
      exact hkv k (fun hm => hk0 (List.mem_append_left _ hm))
    have hpr' : ∀ p ∈ s.probes, GetKey p.site.URL ∈ done ++ [key] :=
      fun p hp => List.mem_append_left _ (hpr p hp)
    unfold scanKey
    split
    · rename_i hnone
      refine ⟨hwk, done ++ [key], rest', hk', Or.inr (Or.inl rfl), ?_, ?_, hkv', hpr'⟩
      · simp [readKeys, List.filterMap_append] at hrk ⊢
        exact hrk
      · rw [hread] at hnone
        simp [okReads, List.filterMap_append, hnone] at hok ⊢
        exact hok
    · rename_i w hw
      have hw0 : GetJSON d0 key = some w := by rw [← hread]; exact hw
      have hkey : key = GetKey w.URL := hwk key w (GetJSON_eq_some hw)
      split
      · refine ⟨hwk, done ++ [key], rest', hk', Or.inr (Or.inl rfl), ?_, ?_, hkv', ?_⟩
        · simp [readKeys, List.filterMap_append] at hrk ⊢
          exact hrk
        · simp [okReads, List.filterMap_append, hw0] at hok ⊢
          exact hok
        · intro p hp
          simp only [List.mem_append, List.mem_singleton] at hp
          rcases hp with hp | hp
          · exact hpr' p hp
          · subst hp
            simp [← hkey]
      · refine ⟨hwk, done ++ [key], rest', hk', Or.inr (Or.inl rfl), ?_, ?_, hkv', hpr'⟩
        · simp [readKeys, List.filterMap_append] at hrk ⊢
          exact hrk
        · simp [okReads, List.filterMap_append, hw0] at hok ⊢
          exact hok
  · -- wait
    rename_i hpc
    have hrest : rest = [] := by
      rcases hph with h | h | h
      · simp [hpc] at h
      · simp [hpc] at h
      · exact h.1
    split
    · exact ⟨hwk, done, rest, hk, Or.inr (Or.inr ⟨hrest, Or.inr rfl⟩), hrk, hok, hkv, hpr⟩
    · exact ⟨hwk, done, rest, hk, hph, hrk, hok, hkv, hpr⟩
  · exact ⟨hwk, done, rest, hk, hph, hrk, hok, hkv, hpr⟩

theorem scanInv_fetch (d0 : KVData) (keys : List String) (s : State) (i : Nat) (p : Probe)
    (q : ProbePC) (c : Bool) (n : Nat) (hp : s.probes.get? i = some p)
    (h : ScanInv d0 keys s) :
    ScanInv d0 keys { s with
      crashed := c
      probes := s.probes.set i { p with pc := q }
      wg := n
      trace := s.trace ++ [Event.probe i p.site.URL] } := by
  obtain ⟨hwk, done, rest, hk, hph, hrk, hok, hkv, hpr⟩ := h
  have hmem : p ∈ s.probes := List.get?_mem hp
  refine ⟨hwk, done, rest, hk, hph, ?_, ?_, hkv, ?_⟩
  · simpa [readKeys, List.filterMap_append] using hrk
  · simpa [okReads, List.filterMap_append] using hok
  · intro q' hq
    rcases List.mem_or_eq_of_mem_set hq with hq | hq
    · exact hpr q' hq
    · subst hq
      exact hpr p hmem

theorem scanInv_probeStep (env : Env) (d0 : KVData) (keys : List String) (i : Nat)
    (s : State) (h : ScanInv d0 keys s) : ScanInv d0 keys (probeStep env i s) := by
  unfold probeStep
  split
  · exact h
  · rename_i p hp
    have hmem : p ∈ s.probes := List.get?_mem hp
    split
    · -- the fetch
      split
      · exact scanInv_fetch d0 keys s i p ProbePC.panicked true (s.wg - 1) hp h
      · rename_i r hr
        exact scanInv_fetch d0 keys s i p (ProbePC.fetched r) s.crashed s.wg hp h
    · -- the write-back
      rename_i r hpc
      obtain ⟨hwk, done, rest, hk, hph, hrk, hok, hkv, hpr⟩ := h
      have hurl := checkWebsite_url (env.clock i) (env.putOk i) s.kv p.site r
      have hkv2 := checkWebsite_kv (env.clock i) (env.putOk i) s.kv p.site r
      refine ⟨?_, done, rest, hk, hph, ?_, ?_, ?_, ?_⟩
      · show WellKeyed (checkWebsite (env.clock i) (env.putOk i) s.kv p.site r).2
        rw [hkv2, ← hurl]
        exact PutJSON_wellKeyed _ _ _ hwk
      · simpa [readKeys, List.filterMap_append] using hrk
      · simpa [okReads, List.filterMap_append] using hok
      · intro k hk0
        show (checkWebsite (env.clock i) (env.putOk i) s.kv p.site r).2 k = d0 k
        rw [hkv2]
        have hne : k ≠ GetKey p.site.URL := by
          intro hc
          exact hk0 (hc ▸ hpr p hmem)
        rw [PutJSON_other _ _ _ _ _ hne]
        exact hkv k hk0
      · intro q hq
        rcases List.mem_or_eq_of_mem_set hq with hq | hq
        · exact hpr q hq
        · subst hq
          show GetKey (checkWebsite (env.clock i) (env.putOk i) s.kv p.site r).1.URL ∈ done
          rw [hurl]
          exact hpr p hmem
    · exact h
    · exact h

theorem scanInv_exec (env : Env) (d0 : KVData) (keys : List String)
    (hl : env.listing = some keys) (hnd : keys.Nodup) (sched : List Tid) :
    ∀ s : State, ScanInv d0 keys s → ScanInv d0 keys (exec env sched s) :=
  inv_exec env (fun s _ h => scanInv_mainStep env d0 keys hl hnd s h)
    (fun i s _ h => scanInv_probeStep env d0 keys i s h) sched

theorem scanInv_complete {d0 : KVData} {keys : List String} {s : State}
    (h : ScanInv d0 keys s) (hpc : s.pc = MainPC.wait ∨ s.pc = MainPC.returned) :
    readKeys s.trace = keys ∧ okReads s.trace = keys.filterMap (GetJSON d0) := by
  obtain ⟨_, done, rest, hk, hph, hrk, hok, _, _⟩ := h
  have hrest : rest = [] := by
    rcases hph with h | h | h
    · rcases hpc with hpc | hpc <;> simp [hpc] at h
    · rcases hpc with hpc | hpc <;> simp [hpc] at h
    · exact h.1
  subst hrest
  simp only [List.append_nil] at hk
  subst hk
  exact ⟨hrk, hok⟩

theorem scanInv_returned {d0 : KVData} {keys : List String} {s : State}
    (h : ScanInv d0 keys s) (hpc : s.pc = MainPC.returned) :
    readKeys s.trace = keys ∧ okReads s.trace = keys.filterMap (GetJSON d0) :=
  scanInv_complete h (Or.inr hpc)

theorem filterMap_filter_isSome {α β : Type} (f : α → Option β) (l : List α) :
    (l.filter fun a => (f a).isSome).filterMap f = l.filterMap f := by
  induction l with
  | nil => rfl
  | cons a as ih =>
    cases hfa : f a with
    | none => simp [List.filter_cons, List.filterMap_cons, hfa, ih]
    | some b => simp [List.filter_cons, List.filterMap_cons, hfa, ih]

/-! ### Which URLs are fetched -/

theorem map_set_of_get? {α β : Type} (f : α → β) :
    ∀ (l : List α) (i : Nat) (a b : α), l.get? i = some b → f a = f b →
      (l.set i a).map f = l.map f := by
  intro l
  induction l with
  | nil => intro i a b h; simp at h
  | cons x xs ih =>
    intro i a b h hf
    cases i with
    | zero =>
      simp only [List.get?_cons_zero, Option.some.injEq] at h
      subst h
      simp [hf]
    | succ j =>
      simp only [List.get?_cons_succ] at h
      simp [ih j a b h hf]

theorem filter_set_perm_of_get? {α β : Type} (p : α → Bool) (f : α → β) :
    ∀ (l : List α) (i : Nat) (a b : α), l.get? i = some b → p b = false → p a = true →
      (((l.set i a).filter p).map f).Perm ((l.filter p).map f ++ [f a]) := by
  intro l
  induction l with
  | nil => intro i a b h; simp at h
  | cons x xs ih =>
    intro i a b h hb ha
    cases i with
    | zero =>
      simp only [List.get?_cons_zero, Option.some.injEq] at h
      subst h
      simp only [List.set_cons_zero, List.filter_cons, ha, hb, if_true, Bool.false_eq_true,
        if_false, List.map_cons]
      exact (List.perm_append_singleton _ _).symm
    | succ j =>
      simp only [List.get?_cons_succ] at h
      have := ih j a b h hb ha
      simp only [List.set_cons_succ, List.filter_cons]
      split
      · simpa using this
      · exact this

theorem filter_set_eq_of_get? {α β : Type} (p : α → Bool) (f : α → β) :
    ∀ (l : List α) (i : Nat) (a b : α), l.get? i = some b → p b = true → p a = true →
      f a = f b → ((l.set i a).filter p).map f = (l.filter p).map f := by
  intro l
  induction l with
  | nil => intro i a b h; simp at h
  | cons x xs ih =>
    intro i a b h hb ha hf
    cases i with
    | zero =>
      simp only [List.get?_cons_zero, Option.some.injEq] at h
      subst h
      simp [List.filter_cons, ha, hb, hf]
    | succ j =>
      simp only [List.get?_cons_succ] at h
      have := ih j a b h hb ha hf
      simp only [List.set_cons_succ, List.filter_cons]
      split
      · simp [this]
      · exact this

theorem probedInv_entry (m : Monitor) (kv : KVData) : ProbedInv (checkWebsitesEntry m kv) := by
  constructor <;> simp [checkWebsitesEntry, startedSites, probedUrls]

theorem probedInv_startOf (m : Monitor) (kv : KVData) : ProbedInv (startOf m kv) := by
  constructor <;> simp [startOf, startedSites, probedUrls]

theorem probedInv_mainStep (env : Env) (s : State) (h : ProbedInv s) :
    ProbedInv (mainStep env s) := by
  obtain ⟨h1, h2⟩ := h
  unfold mainStep
  split
  · split
    · exact ⟨h1, h2⟩
    · exact ⟨h1, h2⟩
  · split
    · constructor
      · simpa [startedSites, List.filterMap_append] using h1
      · simpa [probedUrls, List.filterMap_append] using h2
    · split
      · constructor
        · simpa [startedSites, List.filterMap_append] using h1
        · simpa [probedUrls, List.filterMap_append] using h2
      · constructor
        · simpa [startedSites, List.filterMap_append] using h1
        · simpa [probedUrls, List.filterMap_append] using h2
  · exact ⟨h1, h2⟩
  · unfold scanKey
    split
    · constructor
      · simpa [startedSites, List.filterMap_append] using h1
      · simpa [probedUrls, List.filterMap_append] using h2
    · split
      · constructor
        · simpa [startedSites, List.filterMap_append] using h1
        · simpa [probedUrls, List.filterMap_append, List.filter_append, Probe.hasFetched]
            using h2
      · constructor
        · simpa [startedSites, List.filterMap_append] using h1
        · simpa [probedUrls, List.filterMap_append] using h2
  · split
    · exact ⟨h1, h2⟩
    · exact ⟨h1, h2⟩
  · exact ⟨h1, h2⟩

theorem probedInv_fetch (s : State) (i : Nat) (p : Probe) (q : ProbePC) (c : Bool) (n : Nat)
    (hp : s.probes.get? i = some p) (hpc : p.pc = ProbePC.ready)
    (hq : Probe.hasFetched { p with pc := q } = true) (h : ProbedInv s) :
    ProbedInv { s with
      crashed := c
      probes := s.probes.set i { p with pc := q }
      wg := n
      trace := s.trace ++ [Event.probe i p.site.URL] } := by
  obtain ⟨h1, h2⟩ := h
  constructor
  · have := map_set_of_get? (fun p : Probe => p.site.URL) s.probes i
      { p with pc := q } p hp rfl
    simpa [startedSites, List.filterMap_append, this] using h1
  · have := filter_set_perm_of_get? Probe.hasFetched (fun p : Probe => p.site.URL)
      s.probes i { p with pc := q } p hp
      (by simp [Probe.hasFetched, hpc]) hq
    simp only [probedUrls, List.filterMap_append] at h2 ⊢
    refine List.Perm.trans ?_ this.symm
    simpa using List.Perm.append_right [p.site.URL] h2

theorem probedInv_probeStep (env : Env) (i : Nat) (s : State) (h : ProbedInv s) :
    ProbedInv (probeStep env i s) := by
  unfold probeStep
  split
  · exact h
  · rename_i p hp
    split
    · rename_i hpc
      split
      · exact probedInv_fetch s i p ProbePC.panicked true (s.wg - 1) hp hpc rfl h
      · rename_i r hr
        exact probedInv_fetch s i p (ProbePC.fetched r) s.crashed s.wg hp hpc rfl h
    · rename_i r hpc
      obtain ⟨h1, h2⟩ := h
      have hurl := checkWebsite_url (env.clock i) (env.putOk i) s.kv p.site r
      constructor
      · have := map_set_of_get? (fun p : Probe => p.site.URL) s.probes i
          { site := (checkWebsite (env.clock i) (env.putOk i) s.kv p.site r).1,
            pc := ProbePC.finished } p hp hurl
        simpa [startedSites, List.filterMap_append, this] using h1
      · have := filter_set_eq_of_get? Probe.hasFetched (fun p : Probe => p.site.URL)
          s.probes i
          { site := (checkWebsite (env.clock i) (env.putOk i) s.kv p.site r).1,
            pc := ProbePC.finished } p hp
          (by simp [Probe.hasFetched, hpc]) (by simp [Probe.hasFetched]) hurl
        simp only [probedUrls, List.filterMap_append] at h2 ⊢
        rw [this]
        simpa using h2
    · exact h
    · exact h

theorem probedInv_exec (env : Env) (sched : List Tid) :
    ∀ s : State, ProbedInv s → ProbedInv (exec env sched s) :=
  inv_exec env (fun s _ h => probedInv_mainStep env s h)
    (fun i s _ h => probedInv_probeStep env i s h) sched

theorem filter_eq_self_of_countP_eq_length {α : Type} (p : α → Bool) (l : List α)
    (h : l.countP p = l.length) : l.filter p = l := by
  rw [List.filter_eq_self]
  intro a ha
  exact (List.countP_eq_length.mp h) a ha

/-! ### What a cycle leaves untouched -/

theorem mainStep_kv (env : Env) (s : State) : (mainStep env s).kv = s.kv := by
  unfold mainStep
  split
  · split <;> rfl
  · split
    · rfl
    · split <;> rfl
  · rfl
  · unfold scanKey
    split
    · rfl
    · split <;> rfl
  · split <;> rfl
  · rfl

theorem trace_subset_mainStep (env : Env) (s : State) :
    ∀ e ∈ s.trace, e ∈ (mainStep env s).trace := by
  intro e he
  unfold mainStep
  split
  · split <;> exact he
  · split
    · exact List.mem_append_left _ he
    · split <;> exact List.mem_append_left _ he
  · exact he
  · unfold scanKey
    split
    · exact List.mem_append_left _ he
    · split <;> exact List.mem_append_left _ he
  · split <;> exact he
  · exact he

theorem trace_subset_probeStep (env : Env) (i : Nat) (s : State) :
    ∀ e ∈ s.trace, e ∈ (probeStep env i s).trace := by
  intro e he
  unfold probeStep
  split
  · exact he
  · split
    · split <;> exact List.mem_append_left _ he
    · exact List.mem_append_left _ he
    · exact he
    · exact he

theorem trace_subset_step (env : Env) (t : Tid) (s : State) :
    ∀ e ∈ s.trace, e ∈ (step env t s).trace := by
  intro e he
  cases hc : s.crashed with
  | true =>
    have : step env t s = s := by unfold step; simp [hc]
    rw [this]; exact he
  | false =>
    rw [step_of_alive env t s hc]
    cases t with
    | main => exact trace_subset_mainStep env s e he
    | probe i => exact trace_subset_probeStep env i s e he

theorem trace_subset_exec (env : Env) (sched : List Tid) :
    ∀ (s : State), ∀ e ∈ s.trace, e ∈ (exec env sched s).trace := by
  induction sched with
  | nil => intro s e he; exact he
  | cons t ts ih =>
    intro s e he
    exact ih _ e (trace_subset_step env t s e he)

theorem writtenIn_mono (env : Env) (sched : List Tid) (s : State) (k : String)
    (h : writtenIn s.trace k = true) : writtenIn (exec env sched s).trace k = true := by
  unfold writtenIn at h ⊢
  rw [List.any_eq_true] at h ⊢
  obtain ⟨e, he, hf⟩ := h
  exact ⟨e, trace_subset_exec env sched s e he, hf⟩

theorem probeStep_kv_unwritten (env : Env) (i : Nat) (s : State) (k : String)
    (h : writtenIn (probeStep env i s).trace k = false) :
    (probeStep env i s).kv k = s.kv k := by
  unfold probeStep at h ⊢
  split
  · rfl
  · rename_i p hp
    split
    · split <;> rfl
    · rename_i r hpc
      simp only [hp, hpc] at h
      show (checkWebsite (env.clock i) (env.putOk i) s.kv p.site r).2 k = s.kv k
      rw [checkWebsite_kv]
      cases hok : env.putOk i with
      | false => rw [PutJSON_failed]
      | true =>
        by_cases hk : k = GetKey p.site.URL
        · exfalso
          simp [writtenIn, List.any_append, hok, checkWebsite_url, hk] at h
        · exact PutJSON_other _ _ _ _ _ hk
    · rfl
    · rfl

theorem step_kv_unwritten (env : Env) (t : Tid) (s : State) (k : String)
    (h : writtenIn (step env t s).trace k = false) : (step env t s).kv k = s.kv k := by
  cases hc : s.crashed with
  | true =>
    have : step env t s = s := by unfold step; simp [hc]
    rw [this]
  | false =>
    rw [step_of_alive env t s hc] at h ⊢
    cases t with
    | main => exact congrFun (mainStep_kv env s) k
    | probe i => exact probeStep_kv_unwritten env i s k h

theorem exec_kv_unwritten (env : Env) (sched : List Tid) :
    ∀ (s : State) (k : String), writtenIn (exec env sched s).trace k = false →
      (exec env sched s).kv k = s.kv k := by
  induction sched with
  | nil => intro s k _; rfl
  | cons t ts ih =>
    intro s k h
    have h1 : (exec env ts (step env t s)).kv k = (step env t s).kv k := ih _ k h
    have h2 : writtenIn (step env t s).trace k = false := by
      cases hc : writtenIn (step env t s).trace k with
      | false => rfl
      | true =>
        have := writtenIn_mono env ts (step env t s) k hc
        have h' : writtenIn (exec env ts (step env t s)).trace k = false := h
        rw [this] at h'
        exact absurd h' (by simp)
    show (exec env ts (step env t s)).kv k = s.kv k
    rw [h1, step_kv_unwritten env t s k h2]

/-! ### A cycle without due records -/

theorem quietInv_entry (d0 : KVData) (keys : List String) (m : Monitor) :
    QuietInv d0 keys (checkWebsitesEntry m d0) :=
  ⟨rfl, rfl, [], keys, rfl, Or.inl ⟨rfl, rfl, rfl⟩⟩

theorem quietInv_mainStep (env : Env) (d0 : KVData)
    (hq : ∀ k ∈ env.listing.getD [], ∀ w, GetJSON d0 k = some w → isDue env.now w = false)
    (s : State) (h : QuietInv d0 (env.listing.getD []) s) :
    QuietInv d0 (env.listing.getD []) (mainStep env s) := by
  obtain ⟨hkv, hnp, done, rest, hk, hph⟩ := h
  unfold mainStep
  split
  · rename_i hpc
    simp [hpc] at hph
  · rename_i hpc
    have hd : done = [] ∧ s.trace = [] := by
      rcases hph with h | h
      · exact ⟨h.2.1, h.2.2⟩
      · simp [hpc] at h
    obtain ⟨hd1, hd2⟩ := hd
    subst hd1
    simp only [List.nil_append] at hk
    split
    · rename_i hnone
      have hrest : rest = [] := by rw [← hk, hnone]; rfl
      exact ⟨hkv, hnp, [], rest, hk, Or.inr ⟨Or.inr ⟨hrest, Or.inr rfl⟩, by simp [hd2]⟩⟩
    · rename_i keys hsome
      have hkeys : keys = rest := by rw [← hk, hsome]; rfl
      split
      · rename_i hlen
        have hrest : rest = [] := by rw [← hkeys]; exact List.length_eq_zero.mp hlen
        exact ⟨hkv, hnp, [], rest, hk, Or.inr ⟨Or.inr ⟨hrest, Or.inr rfl⟩, by simp [hd2]⟩⟩
      · exact ⟨hkv, hnp, [], rest, hk, Or.inr ⟨Or.inl (by rw [hkeys]), by simp [hd2]⟩⟩
  · rename_i hpc
    rcases hph with h | ⟨h, htr⟩
    · simp [hpc] at h
    · have hrest : rest = [] := by
        rcases h with h | h
        · rw [hpc] at h; injection h with h; exact h.symm
        · exact h.1
      exact ⟨hkv, hnp, done, rest, hk, Or.inr ⟨Or.inr ⟨hrest, Or.inl rfl⟩, htr⟩⟩
  · rename_i key rest' hpc
    rcases hph with h | ⟨h, htr⟩
    · simp [hpc] at h
    · have hrest : rest = key :: rest' := by
        rcases h with h | h
        · rw [hpc] at h; injection h with h; exact h.symm
        · simp [hpc] at h
      subst hrest
      have hmem : key ∈ env.listing.getD [] := by rw [hk]; simp
      have hk' : env.listing.getD [] = (done ++ [key]) ++ rest' := by simp [hk]
      have hg : GetJSON s.kv key = GetJSON d0 key := by rw [hkv]
      unfold scanKey
      rw [hg]
      split
      · rename_i hnone
        refine ⟨hkv, hnp, done ++ [key], rest', hk', Or.inr ⟨Or.inl rfl, ?_⟩⟩
        simp [htr, hnone]
      · rename_i w hw
        have hnd := hq key hmem w hw
        simp only [hnd, Bool.false_eq_true, if_false]
        refine ⟨hkv, hnp, done ++ [key], rest', hk', Or.inr ⟨Or.inl rfl, ?_⟩⟩
        simp [htr, hw]
  · rename_i hpc
    rcases hph with h | ⟨h, htr⟩
    · simp [hpc] at h
    · have hrest : rest = [] := by
        rcases h with h | h
        · simp [hpc] at h
        · exact h.1
      split
      · exact ⟨hkv, hnp, done, rest, hk, Or.inr ⟨Or.inr ⟨hrest, Or.inr rfl⟩, htr⟩⟩
      · exact ⟨hkv, hnp, done, rest, hk, Or.inr ⟨Or.inr ⟨hrest, Or.inl hpc⟩, htr⟩⟩
  · exact ⟨hkv, hnp, done, rest, hk, hph⟩

theorem quietInv_step (env : Env) (d0 : KVData)
    (hq : ∀ k ∈ env.listing.getD [], ∀ w, GetJSON d0 k = some w → isDue env.now w = false)
    (t : Tid) (s : State) (h : QuietInv d0 (env.listing.getD []) s) :
    QuietInv d0 (env.listing.getD []) (step env t s) := by
  refine inv_step env ?_ ?_ t s h
  · intro s _ h
    exact quietInv_mainStep env d0 hq s h
  · intro i s _ h
    have hs : probeStep env i s = s := by
      unfold probeStep
      simp [h.no_probes]
    rw [hs]
    exact h

theorem quietInv_exec (env : Env) (d0 : KVData)
    (hq : ∀ k ∈ env.listing.getD [], ∀ w, GetJSON d0 k = some w → isDue env.now w = false)
    (sched : List Tid) :
    ∀ s : State, QuietInv d0 (env.listing.getD []) s →
      QuietInv d0 (env.listing.getD []) (exec env sched s) := by
  induction sched with
  | nil => intro s h; exact h
  | cons t ts ih =>
    intro s h
    exact ih _ (quietInv_step env d0 hq t s h)

/-! ### A monitor whose flag is set -/

theorem exec_running_noop (env : Env) (sched : List Tid) :
    ∀ s : State, s.m.isRunning = true → s.probes = [] →
      (s.pc = MainPC.start ∨ s.pc = MainPC.returned) →
      (exec env sched s).kv = s.kv ∧ (exec env sched s).probes = []
        ∧ (exec env sched s).trace = s.trace
        ∧ ((exec env sched s).pc = MainPC.start ∨ (exec env sched s).pc = MainPC.returned) := by
  induction sched with
  | nil => intro s _ hp hpc; exact ⟨rfl, hp, rfl, hpc⟩
  | cons t ts ih =>
    intro s hm hp hpc
    have key : (step env t s).kv = s.kv ∧ (step env t s).probes = []
        ∧ (step env t s).trace = s.trace ∧ (step env t s).m.isRunning = true
        ∧ ((step env t s).pc = MainPC.start ∨ (step env t s).pc = MainPC.returned) := by
      cases hc : s.crashed with
      | true =>
        have hs : step env t s = s := by unfold step; simp [hc]
        rw [hs]
        exact ⟨rfl, hp, rfl, hm, hpc⟩
      | false =>
        rw [step_of_alive env t s hc]
        cases t with
        | probe i =>
          have hs : probeStep env i s = s := by
            unfold probeStep
            simp [hp]
          show (probeStep env i s).kv = s.kv ∧ (probeStep env i s).probes = []
            ∧ (probeStep env i s).trace = s.trace ∧ (probeStep env i s).m.isRunning = true
            ∧ ((probeStep env i s).pc = MainPC.start ∨ (probeStep env i s).pc = MainPC.returned)
          rw [hs]
          exact ⟨rfl, hp, rfl, hm, hpc⟩
        | main =>
          show (mainStep env s).kv = s.kv ∧ (mainStep env s).probes = []
            ∧ (mainStep env s).trace = s.trace ∧ (mainStep env s).m.isRunning = true
            ∧ ((mainStep env s).pc = MainPC.start ∨ (mainStep env s).pc = MainPC.returned)
          unfold mainStep
          rcases hpc with hpc | hpc
          · simp [hpc, hm, hp]
          · simp [hpc, hm, hp]
    obtain ⟨k1, k2, k3, k4, k5⟩ := key
    obtain ⟨i1, i2, i3, i4⟩ := ih (step env t s) k4 k2 k5
    exact ⟨by rw [← k1]; exact i1, i2, by rw [← k3]; exact i3, i4⟩

/-! ### Keys -/

theorem GetKey_injective (u1 u2 : String) (h : GetKey u1 = GetKey u2) : u1 = u2 := by
  unfold GetKey at h
  have := congrArg String.data h
  simp only [String.data_append, List.append_cancel_left_eq] at this
  exact String.ext this

/-! ## The claims -/

theorem isDue_iff (now : Int) (w : Website) (h : isInt64 (now - w.LastCheckedAt)) :
    isDue now w = true ↔ (w.LastCheckedAt = 0 ∨ now - w.LastCheckedAt ≥ w.Frequency) := by
  unfold isInt64 at h
  unfold isDue wrapInt64
  simp only [Bool.or_eq_true, beq_iff_eq, decide_eq_true_eq]
  constructor
  · rintro (h0 | h1)
    · exact Or.inl h0
    · right; omega
  · rintro (h0 | h1)
    · exact Or.inl h0
    · right; omega

theorem mem_startedSites_iff (env : Env) (m : Monitor) (kv : KVData) (sched : List Tid)
    (w : Website) (hread : w ∈ okReads (exec env sched (checkWebsitesEntry m kv)).trace) :
    w ∈ startedSites (exec env sched (checkWebsitesEntry m kv)).trace
      ↔ isDue env.now w = true := by
  rw [(countInv_exec env sched _ (countInv_entry env.now m kv)).started_eq, List.mem_filter]
  exact ⟨fun h => h.2, fun h => ⟨hread, h⟩⟩

/-- C2, as stated, fails. `siteOld` was last checked at the least `int64`; at
instant 2000 the true difference `now - lastCheckedAt` is far above the interval
60, yet the `int64` subtraction of line 72 wraps to a negative value: the record
is read successfully and no probe is started for it. -/
theorem wrapped_difference_is_not_due :
    (exec envOld [Tid.main, Tid.main, Tid.main, Tid.main]
        (checkWebsitesEntry NewMonitor storeOld)).pc = MainPC.returned
    ∧ siteOld ∈ okReads (exec envOld [Tid.main, Tid.main, Tid.main, Tid.main]
        (checkWebsitesEntry NewMonitor storeOld)).trace
    ∧ isInt64 siteOld.LastCheckedAt ∧ isInt64 envOld.now ∧ isInt64 siteOld.Frequency
    ∧ (siteOld.LastCheckedAt = 0 ∨ envOld.now - siteOld.LastCheckedAt ≥ siteOld.Frequency)
    ∧ siteOld ∉ startedSites (exec envOld [Tid.main, Tid.main, Tid.main, Tid.main]
        (checkWebsitesEntry NewMonitor storeOld)).trace
    ∧ ¬ (∀ (env : Env) (m : Monitor) (kv : KVData) (sched : List Tid) (w : Website),
          w ∈ okReads (exec env sched (checkWebsitesEntry m kv)).trace →
          (w ∈ startedSites (exec env sched (checkWebsitesEntry m kv)).trace
            ↔ (w.LastCheckedAt = 0 ∨ env.now - w.LastCheckedAt ≥ w.Frequency))) := by
  refine ⟨by decide, by decide, by decide, by decide, by decide, by decide, by decide, ?_⟩
  intro hall
  have h := hall envOld NewMonitor storeOld [Tid.main, Tid.main, Tid.main, Tid.main] siteOld
    (by decide)
  have hnot : siteOld ∉ startedSites (exec envOld [Tid.main, Tid.main, Tid.main, Tid.main]
      (checkWebsitesEntry NewMonitor storeOld)).trace := by decide
  exact hnot (h.mpr (by decide))

/-- C2, amended. For every record the scan of `checkWebsites` read successfully and
every instant `now`, a probe is started for it if and only if `lastCheckedAt == 0`
or the `int64` difference `now - lastCheckedAt`, which wraps, is at least the
interval; whenever the difference fits an `int64` this is
`now - lastCheckedAt >= frequency`. A record never checked is due at every
instant; with interval 60 and a last check at `T != 0` the record is not due at
`T + 59` and is due at `T + 60`. -/
theorem checkWebsites_starts_probe_iff_due (env : Env) (m : Monitor) (kv : KVData)
    (sched : List Tid) (w : Website)
    (hread : w ∈ okReads (exec env sched (checkWebsitesEntry m kv)).trace) :
    (w ∈ startedSites (exec env sched (checkWebsitesEntry m kv)).trace
      ↔ (w.LastCheckedAt = 0 ∨ wrapInt64 (env.now - w.LastCheckedAt) ≥ w.Frequency))
    ∧ (isInt64 (env.now - w.LastCheckedAt) →
      (w ∈ startedSites (exec env sched (checkWebsitesEntry m kv)).trace
        ↔ (w.LastCheckedAt = 0 ∨ env.now - w.LastCheckedAt ≥ w.Frequency)))
    ∧ (w.LastCheckedAt = 0 →
        w ∈ startedSites (exec env sched (checkWebsitesEntry m kv)).trace)
    ∧ (∀ T : Int, T ≠ 0 → w.LastCheckedAt = T → w.Frequency = 60 →
        (env.now = T + 59 →
          w ∉ startedSites (exec env sched (checkWebsitesEntry m kv)).trace)
        ∧ (env.now = T + 60 →
          w ∈ startedSites (exec env sched (checkWebsitesEntry m kv)).trace)) := by
  have hiff := mem_startedSites_iff env m kv sched w hread
  refine ⟨?_, ?_, ?_, ?_⟩
  · rw [hiff]
    simp [isDue]
  · intro hfit
    rw [hiff]
    exact isDue_iff env.now w hfit
  · intro h0
    rw [hiff]
    simp [isDue, h0]
  · intro T hT hlast hfreq
    constructor
    · intro hnow
      rw [hiff]
      have hfit : isInt64 (env.now - w.LastCheckedAt) := by
        rw [hnow, hlast]; unfold isInt64; omega
      rw [isDue_iff env.now w hfit]
      omega
    · intro hnow
      rw [hiff]
      have hfit : isInt64 (env.now - w.LastCheckedAt) := by
        rw [hnow, hlast]; unfold isInt64; omega
      rw [isDue_iff env.now w hfit]
      omega

/-- C2, amended, in `storeABC` at instant 2000: `siteA` (never checked) and `siteC`
(60 seconds ago) get a probe, `siteB` (59 seconds ago) does not. -/
theorem checkWebsites_starts_probe_iff_due_witness :
    siteA ∈ startedSites (exec envABC schedABC (checkWebsitesEntry NewMonitor storeABC)).trace
    ∧ siteB ∉ startedSites
        (exec envABC schedABC (checkWebsitesEntry NewMonitor storeABC)).trace
    ∧ siteC ∈ startedSites
        (exec envABC schedABC (checkWebsitesEntry NewMonitor storeABC)).trace
    ∧ (siteC ∈ startedSites
          (exec envABC schedABC (checkWebsitesEntry NewMonitor storeABC)).trace
        ↔ (siteC.LastCheckedAt = 0
            ∨ envABC.now - siteC.LastCheckedAt ≥ siteC.Frequency)) :=
  ⟨(checkWebsites_starts_probe_iff_due envABC NewMonitor storeABC schedABC siteA
      (by decide)).2.2.1 rfl,
   ((checkWebsites_starts_probe_iff_due envABC NewMonitor storeABC schedABC siteB
      (by decide)).2.2.2 1941 (by decide) rfl rfl).1 rfl,
   ((checkWebsites_starts_probe_iff_due envABC NewMonitor storeABC schedABC siteC
      (by decide)).2.2.2 1940 (by decide) rfl rfl).2 rfl,
   (checkWebsites_starts_probe_iff_due envABC NewMonitor storeABC schedABC siteC
      (by decide)).2.1 (by decide)⟩

theorem counts_of_all_finished :
    ∀ (l : List Probe), (∀ p ∈ l, p.pc = ProbePC.finished) →
      l.countP Probe.hasFetched = l.length ∧ l.countP Probe.isFinished = l.length := by
  intro l
  induction l with
  | nil => intro _; simp
  | cons x xs ih =>
    intro h
    have hx : x.pc = ProbePC.finished := h x (List.mem_cons_self _ _)
    obtain ⟨h2, h3⟩ := ih (fun p hp => h p (List.mem_cons_of_mem _ hp))
    constructor
    · simp [List.countP_cons, Probe.hasFetched, hx, h2]
    · simp [List.countP_cons, Probe.isFinished, hx, h3]

theorem returned_facts (env : Env) (s : State) (hc : CountInv env.now s) (hn : PanicInv s)
    (hp : ProbedInv s) (hret : s.pc = MainPC.returned) :
    startedSites s.trace = (okReads s.trace).filter (isDue env.now)
    ∧ s.probes.length = dueCount env.now s.trace
    ∧ probeCount s.trace = dueCount env.now s.trace
    ∧ putCount s.trace = dueCount env.now s.trace
    ∧ (probedUrls s.trace).Perm ((startedSites s.trace).map fun w => w.URL)
    ∧ (∀ p ∈ s.probes, p.pc = ProbePC.finished)
    ∧ s.wg = 0 := by
  have hwg : s.wg = 0 := hc.ret hret
  have hfin := hn.ret_finished hret
  obtain ⟨hfetched, hdone⟩ := counts_of_all_finished s.probes hfin
  have hlen : s.probes.length = dueCount env.now s.trace := by
    unfold dueCount
    rw [← hc.started_eq, hc.started_len]
  refine ⟨hc.started_eq, hlen, ?_, ?_, ?_, hfin, hwg⟩
  · rw [hc.probe_eq, hfetched, hlen]
  · rw [hc.put_eq, hdone, hlen]
  · have := hp.probed_perm
    rw [filter_eq_self_of_countP_eq_length _ _ hfetched, hp.urls_eq] at this
    exact this

theorem exec_append (env : Env) (a b : List Tid) (s : State) :
    exec env (a ++ b) s = exec env b (exec env a s) := by
  unfold exec
  rw [List.foldl_append]

theorem exec_of_crashed (env : Env) (sched : List Tid) :
    ∀ s : State, s.crashed = true → exec env sched s = s := by
  induction sched with
  | nil => intro s _; rfl
  | cons t ts ih =>
    intro s hc
    have hs : step env t s = s := by unfold step; simp [hc]
    show exec env ts (step env t s) = s
    rw [hs]
    exact ih s hc

theorem exists_returned_of_noThrow (env : Env) (hnt : NoThrow env) (m : Monitor)
    (kv : KVData) :
    ∃ sched, (exec env sched (checkWebsitesEntry m kv)).pc = MainPC.returned
      ∧ (exec env sched (checkWebsitesEntry m kv)).crashed = false :=
  exists_schedule_returned env hnt _ _ (countInv_entry env.now m kv)
    ⟨rfl⟩ (le_refl _)

/-- C6: the code does not do what the claim says. `CreateWebsite` accepts the URL
`a.test`; at instant 2000 `storeCrash` holds two due records, `a.test` and
`https://c.test`. When the scan has started both probes and the fetch of `a.test`
panics, the process is gone: under every continuation `checkWebsites` never
returns, one probe attempt and no put were made for two due records, and the
probe of `https://c.test` is never made. When the panic comes during the scan,
the key of `https://c.test` is never read. -/
theorem probe_panic_ends_the_cycle :
    (CreateWebsite 1000 true (fun _ => none) (some { URL := "a.test", Frequency := 60 })).1
        = 201
    ∧ GetJSON (CreateWebsite 1000 true (fun _ => none)
          (some { URL := "a.test", Frequency := 60 })).2 "websites_a.test"
        = some siteNoScheme
    ∧ isDue envCrash.now siteNoScheme = true
    ∧ isDue envCrash.now siteC = true
    ∧ (∀ sched,
        (exec envCrash ([Tid.main, Tid.main, Tid.main, Tid.main, Tid.probe 0] ++ sched)
            (checkWebsitesEntry NewMonitor storeCrash)).crashed = true
        ∧ (exec envCrash ([Tid.main, Tid.main, Tid.main, Tid.main, Tid.probe 0] ++ sched)
            (checkWebsitesEntry NewMonitor storeCrash)).pc = MainPC.wait
        ∧ (exec envCrash ([Tid.main, Tid.main, Tid.main, Tid.main, Tid.probe 0] ++ sched)
            (checkWebsitesEntry NewMonitor storeCrash)).wg = 1
        ∧ dueCount envCrash.now
            (exec envCrash ([Tid.main, Tid.main, Tid.main, Tid.main, Tid.probe 0] ++ sched)
              (checkWebsitesEntry NewMonitor storeCrash)).trace = 2
        ∧ probeCount
            (exec envCrash ([Tid.main, Tid.main, Tid.main, Tid.main, Tid.probe 0] ++ sched)
              (checkWebsitesEntry NewMonitor storeCrash)).trace = 1
        ∧ putCount
            (exec envCrash ([Tid.main, Tid.main, Tid.main, Tid.main, Tid.probe 0] ++ sched)
              (checkWebsitesEntry NewMonitor storeCrash)).trace = 0
        ∧ (exec envCrash ([Tid.main, Tid.main, Tid.main, Tid.main, Tid.probe 0] ++ sched)
            (checkWebsitesEntry NewMonitor storeCrash)).probes
          = [{ site := siteNoScheme, pc := ProbePC.panicked },
              { site := siteC, pc := ProbePC.ready }]
        ∧ (exec envCrash ([Tid.main, Tid.main, Tid.main, Tid.main, Tid.probe 0] ++ sched)
            (checkWebsitesEntry NewMonitor storeCrash)).kv "websites_https://c.test"
          = some (Stored.record siteC))
    ∧ (∀ sched,
        (exec envCrash ([Tid.main, Tid.main, Tid.probe 0] ++ sched)
            (checkWebsitesEntry NewMonitor storeCrash)).pc
          = MainPC.scan ["websites_https://c.test"]
        ∧ readKeys (exec envCrash ([Tid.main, Tid.main, Tid.probe 0] ++ sched)
            (checkWebsitesEntry NewMonitor storeCrash)).trace = ["websites_a.test"]
        ∧ probedUrls (exec envCrash ([Tid.main, Tid.main, Tid.probe 0] ++ sched)
            (checkWebsitesEntry NewMonitor storeCrash)).trace = ["a.test"]) := by
  refine ⟨by decide, by decide, by decide, by decide, ?_, ?_⟩
  · intro sched
    have hc : (exec envCrash [Tid.main, Tid.main, Tid.main, Tid.main, Tid.probe 0]
        (checkWebsitesEntry NewMonitor storeCrash)).crashed = true := by decide
    rw [exec_append, exec_of_crashed envCrash sched _ hc]
    refine ⟨hc, by decide, by decide, by decide, by decide, by decide, by decide, by decide⟩
  · intro sched
    have hc : (exec envCrash [Tid.main, Tid.main, Tid.probe 0]
        (checkWebsitesEntry NewMonitor storeCrash)).crashed = true := by decide
    rw [exec_append, exec_of_crashed envCrash sched _ hc]
    refine ⟨by decide, by decide, by decide⟩

theorem wellKeyed_storeABC : WellKeyed storeABC := by
  intro key w h
  unfold storeABC at h
  split_ifs at h with h1 h2 h3 h4
  · simp only [Option.some.injEq, Stored.record.injEq] at h
    subst h; subst h1; decide
  · simp only [Option.some.injEq, Stored.record.injEq] at h
    subst h; subst h2; decide
  · simp only [Option.some.injEq, Stored.record.injEq] at h
    subst h; subst h3; decide
  · simp at h

theorem nothing_due_storeB :
    ∀ k ∈ envB.listing.getD [], ∀ w, GetJSON storeB k = some w → isDue envB.now w = false := by
  intro k hk w hw
  have hk' : k = "websites_https://b.test" := by simpa [envB] using hk
  subst hk'
  have : w = siteB := by
    have h2 : GetJSON storeB "websites_https://b.test" = some siteB := by decide
    rw [h2] at hw
    exact (Option.some.inj hw).symm
  subst this
  decide

theorem isDue_later (now later : Int) (w : Website) (hdue : isDue now w = true)
    (hle : now ≤ later) (h1 : isInt64 (now - w.LastCheckedAt))
    (h2 : isInt64 (later - w.LastCheckedAt)) : isDue later w = true := by
  rw [isDue_iff now w h1] at hdue
  rw [isDue_iff later w h2]
  omega

/-- C5, as stated, fails. In `storeABC` the record `siteC` was last checked at
1940; the probe of the cycle at 2000 fails with the transport error
"connection refused", the write-back at 2001 succeeds, and the stored record then
has `LastCheckedAt` 2001 (status down, code 0, the error text). -/
theorem transport_error_advances_lastCheckedAt :
    (exec envRefused schedABC (checkWebsitesEntry NewMonitor storeABC)).pc = MainPC.returned
    ∧ Event.probe 1 "https://c.test"
        ∈ (exec envRefused schedABC (checkWebsitesEntry NewMonitor storeABC)).trace
    ∧ envRefused.fetch 1 "https://c.test"
        = some (FetchResult.transportError "connection refused" 12)
    ∧ GetJSON storeABC "websites_https://c.test" = some siteC
    ∧ siteC.LastCheckedAt = 1940
    ∧ GetJSON (exec envRefused schedABC (checkWebsitesEntry NewMonitor storeABC)).kv
        "websites_https://c.test"
        = some { siteC with
            LastCheckedAt := 2001, ResponseTime := 12, StatusCode := 0,
            Error := "connection refused", Status := StatusDown } := by
  refine ⟨by decide, by decide, rfl, by decide, rfl, by decide⟩

/-- C5, amended. A key to which no put of the cycle succeeded (the write-back of
its probe failed) holds after the cycle the value it held at the start: a failed
put leaves the store as it was and `lastCheckedAt` is not advanced; a record that
was due at `now` is due at every later instant, as long as the differences of
both instants to `lastCheckedAt` fit an `int64`, and a cycle at such an instant
that reads the record starts a probe for it. A probe that failed with a
transport error still writes back: when its put succeeds the stored record has
`lastCheckedAt` set to the instant of the write-back, status code 0, the elapsed
time and the error text, with status down when the error text is not empty. -/
theorem failed_write_keeps_record (env : Env) (m : Monitor) (d0 : KVData)
    (sched : List Tid) (key : String)
    (hkey : writtenIn (exec env sched (checkWebsitesEntry m d0)).trace key = false) :
    (exec env sched (checkWebsitesEntry m d0)).kv key = d0 key
    ∧ (∀ clock kv w r, (checkWebsite clock false kv w r).2 = kv)
    ∧ (∀ w now later, GetJSON d0 key = some w → isDue now w = true → now ≤ later →
        isInt64 (now - w.LastCheckedAt) → isInt64 (later - w.LastCheckedAt) →
        GetJSON (exec env sched (checkWebsitesEntry m d0)).kv key = some w
          ∧ isDue later w = true)
    ∧ (∀ clock kv w msg elapsedMs,
        GetJSON (checkWebsite clock true kv w (FetchResult.transportError msg elapsedMs)).2
            (GetKey w.URL)
          = some (checkWebsite clock true kv w (FetchResult.transportError msg elapsedMs)).1
        ∧ (checkWebsite clock true kv w
            (FetchResult.transportError msg elapsedMs)).1.LastCheckedAt = clock
        ∧ (checkWebsite clock true kv w
            (FetchResult.transportError msg elapsedMs)).1.StatusCode = 0
        ∧ (checkWebsite clock true kv w
            (FetchResult.transportError msg elapsedMs)).1.ResponseTime = elapsedMs
        ∧ (checkWebsite clock true kv w
            (FetchResult.transportError msg elapsedMs)).1.Error = msg
        ∧ (msg ≠ "" →
            (checkWebsite clock true kv w
              (FetchResult.transportError msg elapsedMs)).1.Status = StatusDown))
    ∧ (∀ w now (next : Env) (m' : Monitor) (kv' : KVData) (sched' : List Tid),
        isDue now w = true → now ≤ next.now →
        isInt64 (now - w.LastCheckedAt) → isInt64 (next.now - w.LastCheckedAt) →
        w ∈ okReads (exec next sched' (checkWebsitesEntry m' kv')).trace →
        w ∈ startedSites (exec next sched' (checkWebsitesEntry m' kv')).trace) := by
  have hframe := exec_kv_unwritten env sched (checkWebsitesEntry m d0) key hkey
  refine ⟨hframe, ?_, ?_, ?_, ?_⟩
  rotate_right
  · intro w now next m' kv' sched' hdue hle h1 h2 hread
    exact (mem_startedSites_iff next m' kv' sched' w hread).mpr
      (isDue_later now next.now w hdue hle h1 h2)
  · intro clock kv w r
    rw [checkWebsite_kv, PutJSON_failed]
  · intro w now later hw hdue hle h1 h2
    refine ⟨?_, isDue_later now later w hdue hle h1 h2⟩
    rw [GetJSON_congr hframe]
    exact hw
  · intro clock kv w msg elapsedMs
    have hf := updateStatus_fields clock true kv w 0 elapsedMs msg
    refine ⟨?_, checkWebsite_lastCheckedAt _ _ _ _ _, hf.2.2.2.2.2.1, hf.2.2.2.2.1,
      hf.2.2.2.2.2.2, ?_⟩
    · rw [checkWebsite_kv]
      unfold GetJSON
      rw [PutJSON_same]
    · intro hmsg
      show (updateStatus clock true kv w 0 elapsedMs msg).1.Status = StatusDown
      rw [updateStatus_status_eq]
      simp [classifySpec, hmsg, StatusDown]

/-- C5, amended, at `storeABC` when every put fails: after the cycle the key of
`siteC` still holds `siteC`, last checked at 1940, which is due at 2000 and at
the later instant 2060. -/
theorem failed_write_keeps_record_witness :
    (exec envPutFails schedABC (checkWebsitesEntry NewMonitor storeABC)).pc = MainPC.returned
    ∧ Event.putJSON 1 "websites_https://c.test"
          { siteC with LastCheckedAt := 2001, ResponseTime := 35 } false
        ∈ (exec envPutFails schedABC (checkWebsitesEntry NewMonitor storeABC)).trace
    ∧ (exec envPutFails schedABC (checkWebsitesEntry NewMonitor storeABC)).kv
        "websites_https://c.test" = some (Stored.record siteC)
    ∧ (GetJSON (exec envPutFails schedABC (checkWebsitesEntry NewMonitor storeABC)).kv
          "websites_https://c.test" = some siteC
        ∧ isDue 2060 siteC = true) :=
  ⟨by decide, by decide,
    (failed_write_keeps_record envPutFails NewMonitor storeABC schedABC
      "websites_https://c.test" (by decide)).1,
    (failed_write_keeps_record envPutFails NewMonitor storeABC schedABC
      "websites_https://c.test" (by decide)).2.2.1 siteC 2000 2060 (by decide) (by decide)
      (by decide) (by decide) (by decide)⟩

/-! ### The handlers -/

theorem CreateWebsite_writes (now : Int) (putOk : Bool) (kv : KVData)
    (body : Option CreateWebsiteRequest) :
    (CreateWebsite now putOk kv body).2 = kv
    ∨ ∃ w, (CreateWebsite now putOk kv body).2 = (PutJSON true kv (GetKey w.URL) w).1
        ∧ w.Frequency ≥ 60 ∧ w.LastCheckedAt = 0 ∧ w.Status = StatusUnknown
        ∧ w.ResponseTime = -1 ∧ w.StatusCode = -1 ∧ w.Error = "" := by
  unfold CreateWebsite
  cases body with
  | none => exact Or.inl rfl
  | some req =>
    simp only
    split
    · exact Or.inl rfl
    · split
      · exact Or.inl rfl
      · cases putOk with
        | false => left; simp [PutJSON]
        | true =>
          right
          by_cases h60 : req.Frequency ≤ 60
          · refine ⟨(⟨req.URL, 60, 0, now, StatusUnknown, -1, -1, ""⟩ : Website),
              by simp [PutJSON, h60], ?_⟩
            simp
          · refine ⟨(⟨req.URL, req.Frequency, 0, now, StatusUnknown, -1, -1, ""⟩ : Website),
              by simp [PutJSON, h60], ?_⟩
            simp
            omega

theorem UpdateWebsite_writes (putOk : Bool) (kv : KVData) (url : String)
    (body : Option CreateWebsiteRequest) :
    (UpdateWebsite putOk kv url body).2 = kv
    ∨ ∃ w req, GetJSON kv (GetKey url) = some w ∧ body = some req
        ∧ (UpdateWebsite putOk kv url body).2
            = (PutJSON true kv (GetKey url) { w with Frequency := req.Frequency }).1 := by
  unfold UpdateWebsite
  simp only
  split
  · exact Or.inl rfl
  · rename_i w hw
    cases body with
    | none => exact Or.inl rfl
    | some req =>
      cases putOk with
      | false => left; simp [PutJSON]
      | true => right; exact ⟨w, req, hw, rfl, by simp [PutJSON]⟩

theorem classifySpec_mem (errorMessage : String) (statusCode : Int) :
    classifySpec errorMessage statusCode
      ∈ [StatusUnknown, StatusUp, StatusDown, StatusDegraded] := by
  unfold classifySpec StatusUnknown StatusUp StatusDown StatusDegraded
  split_ifs <;> simp

/-- C3: the code does not do what the claim says. `CreateWebsite` stores a
frequency of at least 60 for every request, but `UpdateWebsite` copies the
request's frequency into the record before the clamp: updating `siteA` with
frequency 5 (or -10) answers 200 and stores a record with that frequency. -/
theorem UpdateWebsite_stores_frequency_below_60 :
    (UpdateWebsite true storeA "https://a.test" (some { URL := "", Frequency := 5 })).1 = 200
    ∧ GetJSON (UpdateWebsite true storeA "https://a.test"
          (some { URL := "", Frequency := 5 })).2 "websites_https://a.test"
        = some { siteA with Frequency := 5 }
    ∧ GetJSON (UpdateWebsite true storeA "https://a.test"
          (some { URL := "", Frequency := -10 })).2 "websites_https://a.test"
        = some { siteA with Frequency := -10 }
    ∧ GetJSON (CreateWebsite 1000 true (fun _ => none)
          (some { URL := "https://a.test", Frequency := 5 })).2 "websites_https://a.test"
        = some siteA
    ∧ siteA.Frequency = 60
    ∧ (∀ now putOk kv body,
        (CreateWebsite now putOk kv body).2 = kv
        ∨ ∃ w, (CreateWebsite now putOk kv body).2 = (PutJSON true kv (GetKey w.URL) w).1
            ∧ w.Frequency ≥ 60) := by
  refine ⟨by decide, by decide, by decide, by decide, rfl, ?_⟩
  intro now putOk kv body
  rcases CreateWebsite_writes now putOk kv body with h | ⟨w, hw, hf, _⟩
  · exact Or.inl h
  · exact Or.inr ⟨w, hw, hf⟩

/-- C4. The status is never set apart from the error text and the status code:
the one record `CreateWebsite` may put has error "" and status code -1 and the
status these classify to, unknown; the record `updateStatus` puts has the status
its error text and status code classify to, one of the four values; and the one
record `UpdateWebsite` may put has the status, error text and status code of the
record it read, so it is classified if that one was. -/
theorem status_follows_classification :
    (∀ now putOk kv body,
      (CreateWebsite now putOk kv body).2 = kv
      ∨ ∃ w, (CreateWebsite now putOk kv body).2 = (PutJSON true kv (GetKey w.URL) w).1
          ∧ w.Error = "" ∧ w.StatusCode = -1 ∧ w.Status = StatusUnknown
          ∧ w.Status = classifySpec w.Error w.StatusCode)
    ∧ (∀ clock putOk kv w statusCode responseTime errorMsg,
        (updateStatus clock putOk kv w statusCode responseTime errorMsg).2
          = (PutJSON putOk kv (GetKey w.URL)
              (updateStatus clock putOk kv w statusCode responseTime errorMsg).1).1
        ∧ (updateStatus clock putOk kv w statusCode responseTime errorMsg).1.Status
          = classifySpec
              (updateStatus clock putOk kv w statusCode responseTime errorMsg).1.Error
              (updateStatus clock putOk kv w statusCode responseTime errorMsg).1.StatusCode
        ∧ (updateStatus clock putOk kv w statusCode responseTime errorMsg).1.Status
          ∈ [StatusUnknown, StatusUp, StatusDown, StatusDegraded])
    ∧ (∀ putOk kv url body,
        (UpdateWebsite putOk kv url body).2 = kv
        ∨ ∃ w w', GetJSON kv (GetKey url) = some w
            ∧ (UpdateWebsite putOk kv url body).2 = (PutJSON true kv (GetKey url) w').1
            ∧ w'.Status = w.Status ∧ w'.Error = w.Error ∧ w'.StatusCode = w.StatusCode
            ∧ (w.Status = classifySpec w.Error w.StatusCode →
                w'.Status = classifySpec w'.Error w'.StatusCode)) := by
  refine ⟨?_, ?_, ?_⟩
  · intro now putOk kv body
    rcases CreateWebsite_writes now putOk kv body with h | ⟨w, hw, _, _, hs, _, hc, he⟩
    · exact Or.inl h
    · refine Or.inr ⟨w, hw, he, hc, hs, ?_⟩
      rw [hs, he, hc]
      decide
  · intro clock putOk kv w statusCode responseTime errorMsg
    have hf := updateStatus_fields clock putOk kv w statusCode responseTime errorMsg
    have hs := updateStatus_status_eq clock putOk kv w statusCode responseTime errorMsg
    refine ⟨updateStatus_kv _ _ _ _ _ _ _, ?_, ?_⟩
    · rw [hf.2.2.2.2.2.2, hf.2.2.2.2.2.1]
      exact hs
    · rw [hs]
      exact classifySpec_mem _ _
  · intro putOk kv url body
    rcases UpdateWebsite_writes putOk kv url body with h | ⟨w, req, hw, _, hput⟩
    · exact Or.inl h
    · exact Or.inr ⟨w, _, hw, hput, rfl, rfl, rfl, fun h => h⟩

/-- C4 on `storeA`: creating a website writes a record with status unknown, and
updating `siteA`, whose status is classified, writes a classified record. -/
theorem status_follows_classification_witness :
    ((CreateWebsite 1000 true storeA (some { URL := "https://n.test", Frequency := 90 })).2
        = storeA
      ∨ ∃ w, (CreateWebsite 1000 true storeA
              (some { URL := "https://n.test", Frequency := 90 })).2
            = (PutJSON true storeA (GetKey w.URL) w).1
          ∧ w.Error = "" ∧ w.StatusCode = -1 ∧ w.Status = StatusUnknown
          ∧ w.Status = classifySpec w.Error w.StatusCode)
    ∧ siteA.Status = classifySpec siteA.Error siteA.StatusCode :=
  ⟨status_follows_classification.1 1000 true storeA
      (some { URL := "https://n.test", Frequency := 90 }), by decide⟩

/-! ### The guard flag and the cron task -/

/-- C9: the code does not do what the claim says. The flag guards only calls on
the same `Monitor`, and the cron task builds a new one for every trigger. Here the
first trigger has started the probe for `siteA` and waits at `wg.Wait()` with its
flag set; a second trigger then lists the store, reads `siteA`, which is still
due, and starts a second probe for it. A second `StartMonitoring` on the first
monitor would have returned at once. -/
theorem second_trigger_starts_second_probe :
    cronTask true storeA = some (startOf NewMonitor storeA)
    ∧ (exec envA [Tid.main, Tid.main, Tid.main, Tid.main] (startOf NewMonitor storeA)).pc
        = MainPC.wait
    ∧ (exec envA [Tid.main, Tid.main, Tid.main, Tid.main]
        (startOf NewMonitor storeA)).m.isRunning = true
    ∧ (exec envA [Tid.main, Tid.main, Tid.main, Tid.main] (startOf NewMonitor storeA)).probes
        = [{ site := siteA, pc := ProbePC.ready }]
    ∧ (exec envA [Tid.main, Tid.main, Tid.main, Tid.main] (startOf NewMonitor storeA)).wg = 1
    ∧ (cronTask true
          (exec envA [Tid.main, Tid.main, Tid.main, Tid.main] (startOf NewMonitor storeA)).kv).map
        (fun t => (exec envA [Tid.main, Tid.main, Tid.main] t).trace)
        = some [Event.list "websites_" 1000,
            Event.getJSON "websites_https://a.test" (some siteA), Event.start 0 siteA]
    ∧ (cronTask true
          (exec envA [Tid.main, Tid.main, Tid.main, Tid.main] (startOf NewMonitor storeA)).kv).map
        (fun t => (exec envA [Tid.main, Tid.main, Tid.main] t).probes)
        = some [{ site := siteA, pc := ProbePC.ready }]
    ∧ (exec envA [Tid.main, Tid.main, Tid.main]
        (startOf
          (exec envA [Tid.main, Tid.main, Tid.main, Tid.main] (startOf NewMonitor storeA)).m
          (exec envA [Tid.main, Tid.main, Tid.main, Tid.main]
            (startOf NewMonitor storeA)).kv)).trace = [] := by
  refine ⟨rfl, by decide, by decide, by decide, by decide, by decide, by decide, by decide⟩

/-! ### Disjoint keys -/

theorem updateStatus_fst_indep (clock : Int) (putOk putOk' : Bool) (kv kv' : KVData)
    (w : Website) (statusCode responseTime : Int) (errorMsg : String) :
    (updateStatus clock putOk kv w statusCode responseTime errorMsg).1
      = (updateStatus clock putOk' kv' w statusCode responseTime errorMsg).1 := rfl

theorem PutJSON_comm (ok1 ok2 : Bool) (kv : KVData) (k1 k2 : String) (v1 v2 : Website)
    (h : k1 ≠ k2) :
    (PutJSON ok2 (PutJSON ok1 kv k1 v1).1 k2 v2).1
      = (PutJSON ok1 (PutJSON ok2 kv k2 v2).1 k1 v1).1 := by
  funext k
  cases ok1 <;> cases ok2 <;> simp only [PutJSON, if_true, Bool.false_eq_true, if_false]
  by_cases hk1 : k = k1
  · have hk2 : k ≠ k2 := fun hc => h (hk1.symm.trans hc)
    simp [hk1, h]
  · simp [hk1]

/-- C10. `GetKey` is the reserved start "websites_" followed by the URL and is
injective, so two records with different URLs have different keys; the put of
`updateStatus` for one of them leaves the value under the other's key as it was,
and the store after the two write-backs is the same whichever is made first. -/
theorem updateStatus_for_different_urls_commute (w1 w2 : Website) (h : w1.URL ≠ w2.URL)
    (kv : KVData) (clock1 clock2 : Int) (ok1 ok2 : Bool)
    (code1 code2 time1 time2 : Int) (msg1 msg2 : String) :
    GetKey w1.URL = "websites_" ++ w1.URL
    ∧ (∀ u1 u2 : String, GetKey u1 = GetKey u2 → u1 = u2)
    ∧ GetKey w1.URL ≠ GetKey w2.URL
    ∧ (updateStatus clock1 ok1 kv w1 code1 time1 msg1).2 (GetKey w2.URL) = kv (GetKey w2.URL)
    ∧ (∀ k, k ≠ GetKey w1.URL → (updateStatus clock1 ok1 kv w1 code1 time1 msg1).2 k = kv k)
    ∧ (updateStatus clock2 ok2 (updateStatus clock1 ok1 kv w1 code1 time1 msg1).2
          w2 code2 time2 msg2).2
        = (updateStatus clock1 ok1 (updateStatus clock2 ok2 kv w2 code2 time2 msg2).2
          w1 code1 time1 msg1).2 := by
  have hne : GetKey w1.URL ≠ GetKey w2.URL := fun hc => h (GetKey_injective _ _ hc)
  refine ⟨rfl, GetKey_injective, hne, ?_, ?_, ?_⟩
  · rw [updateStatus_kv]
    exact PutJSON_other _ _ _ _ _ (Ne.symm hne)
  · intro k hk
    rw [updateStatus_kv]
    exact PutJSON_other _ _ _ _ _ hk
  · rw [updateStatus_kv clock2, updateStatus_kv clock1 ok1 (updateStatus clock2 ok2 kv w2 _ _ _).2,
      updateStatus_kv clock1 ok1 kv, updateStatus_kv clock2 ok2 kv]
    rw [updateStatus_fst_indep clock2 ok2 ok2 _ kv, updateStatus_fst_indep clock1 ok1 ok1 _ kv]
    exact PutJSON_comm ok1 ok2 kv _ _ _ _ hne

/-- C10 for `siteA` and `siteB`: writing back `siteA` leaves the record of `siteB`
in `storeABC` as it was. -/
theorem updateStatus_for_different_urls_commute_witness :
    (updateStatus 2001 true storeABC siteA 200 35 "").2 (GetKey siteB.URL)
      = some (Stored.record siteB) :=
  ((updateStatus_for_different_urls_commute siteA siteB (by decide) storeABC 2001 2002 true
      true 200 503 35 40 "" "").2.2.2.1).trans (by decide)

/-! ### The outcome classifier -/

/-- C1. For every error message and status code, the status `updateStatus` assigns
is the one the classification rule gives: down for a non-empty error message
(whatever the code: "timeout" with 200 gives down), otherwise down from 500,
degraded in 400..499, up in 200..299, unknown for every other code (1xx, 3xx, 0,
negative); it is exactly one of the four values, which are distinct. -/
theorem updateStatus_status_classified (clock : Int) (putOk : Bool) (kv : KVData)
    (w : Website) (statusCode responseTime : Int) (errorMsg : String) :
    (updateStatus clock putOk kv w statusCode responseTime errorMsg).1.Status
        = classifySpec errorMsg statusCode
    ∧ (∃! v, v ∈ [StatusUnknown, StatusUp, StatusDown, StatusDegraded]
        ∧ (updateStatus clock putOk kv w statusCode responseTime errorMsg).1.Status = v)
    ∧ [StatusUnknown, StatusUp, StatusDown, StatusDegraded].Nodup
    ∧ (updateStatus clock putOk kv w 200 responseTime "timeout").1.Status = StatusDown
    ∧ (updateStatus clock putOk kv w 404 responseTime "").1.Status = StatusDegraded
    ∧ (updateStatus clock putOk kv w 200 responseTime "").1.Status = StatusUp
    ∧ (updateStatus clock putOk kv w 503 responseTime "").1.Status = StatusDown
    ∧ (updateStatus clock putOk kv w 0 responseTime "").1.Status = StatusUnknown
    ∧ (updateStatus clock putOk kv w 301 responseTime "").1.Status = StatusUnknown
    ∧ (updateStatus clock putOk kv w 100 responseTime "").1.Status = StatusUnknown
    ∧ (updateStatus clock putOk kv w (-1) responseTime "").1.Status = StatusUnknown := by
  have hs := updateStatus_status_eq clock putOk kv w statusCode responseTime errorMsg
  refine ⟨hs, ?_, by decide, ?_, ?_, ?_, ?_, ?_, ?_, ?_, ?_⟩
  · refine ⟨_, ⟨?_, rfl⟩, fun y hy => hy.2.symm⟩
    rw [hs]
    exact classifySpec_mem _ _
  all_goals simp [updateStatus, StatusDown, StatusDegraded, StatusUp, StatusUnknown]

/-! ### Every listed key is visited -/

theorem visitInv_entry (keys : List String) (m : Monitor) (kv : KVData) :
    VisitInv keys (checkWebsitesEntry m kv) :=
  ⟨[], keys, rfl, Or.inl ⟨rfl, rfl⟩, rfl⟩

theorem visitInv_mainStep (env : Env) (s : State)
    (h : VisitInv (env.listing.getD []) s) : VisitInv (env.listing.getD []) (mainStep env s) := by
  obtain ⟨done, rest, hk, hph, hrk⟩ := h
  unfold mainStep
  split
  · rename_i hpc
    simp [hpc] at hph
  · rename_i hpc
    have hdone : done = [] := by
      rcases hph with h | h | h
      · exact h.2
      · simp [hpc] at h
      · simp [hpc] at h
    subst hdone
    simp only [List.nil_append] at hk
    have hrk' : readKeys (s.trace ++ [Event.list "websites_" 1000]) = [] := by
      simpa [readKeys, List.filterMap_append] using hrk
    split
    · rename_i hnone
      have hrest : rest = [] := by rw [← hk, hnone]; rfl
      exact ⟨[], rest, hk, Or.inr (Or.inr ⟨hrest, Or.inr rfl⟩), hrk'⟩
    · rename_i keys hsome
      have hkeys : keys = rest := by rw [← hk, hsome]; rfl
      split
      · rename_i hlen
        have hrest : rest = [] := by rw [← hkeys]; exact List.length_eq_zero.mp hlen
        exact ⟨[], rest, hk, Or.inr (Or.inr ⟨hrest, Or.inr rfl⟩), hrk'⟩
      · exact ⟨[], rest, hk, Or.inr (Or.inl (by rw [hkeys])), hrk'⟩
  · rename_i hpc
    have hrest : rest = [] := by
      rcases hph with h | h | h
      · simp [hpc] at h
      · rw [hpc] at h; injection h with h; exact h.symm
      · exact h.1
    exact ⟨done, rest, hk, Or.inr (Or.inr ⟨hrest, Or.inl rfl⟩), hrk⟩
  · rename_i key rest' hpc
    have hrest : rest = key :: rest' := by
      rcases hph with h | h | h
      · simp [hpc] at h
      · rw [hpc] at h; injection h with h; exact h.symm
      · simp [hpc] at h
    subst hrest
    have hk' : env.listing.getD [] = (done ++ [key]) ++ rest' := by simp [hk]
    unfold scanKey
    split
    · refine ⟨done ++ [key], rest', hk', Or.inr (Or.inl rfl), ?_⟩
      simp [readKeys, List.filterMap_append] at hrk ⊢
      exact hrk
    · split
      · refine ⟨done ++ [key], rest', hk', Or.inr (Or.inl rfl), ?_⟩
        simp [readKeys, List.filterMap_append] at hrk ⊢
        exact hrk
      · refine ⟨done ++ [key], rest', hk', Or.inr (Or.inl rfl), ?_⟩
        simp [readKeys, List.filterMap_append] at hrk ⊢
        exact hrk
  · rename_i hpc
    have hrest : rest = [] := by
      rcases hph with h | h | h
      · simp [hpc] at h
      · simp [hpc] at h
      · exact h.1
    split
    · exact ⟨done, rest, hk, Or.inr (Or.inr ⟨hrest, Or.inr rfl⟩), hrk⟩
    · exact ⟨done, rest, hk, hph, hrk⟩
  · exact ⟨done, rest, hk, hph, hrk⟩

theorem visitInv_probeStep (env : Env) (i : Nat) (s : State)
    (h : VisitInv (env.listing.getD []) s) :
    VisitInv (env.listing.getD []) (probeStep env i s) := by
  obtain ⟨done, rest, hk, hph, hrk⟩ := h
  unfold probeStep
  split
  · exact ⟨done, rest, hk, hph, hrk⟩
  · split
    · split
      · exact ⟨done, rest, hk, hph, by simpa [readKeys, List.filterMap_append] using hrk⟩
      · exact ⟨done, rest, hk, hph, by simpa [readKeys, List.filterMap_append] using hrk⟩
    · exact ⟨done, rest, hk, hph, by simpa [readKeys, List.filterMap_append] using hrk⟩
    · exact ⟨done, rest, hk, hph, hrk⟩
    · exact ⟨done, rest, hk, hph, hrk⟩

theorem visitInv_step (env : Env) (t : Tid) (s : State)
    (h : VisitInv (env.listing.getD []) s) : VisitInv (env.listing.getD []) (step env t s) := by
  exact inv_step env (fun s _ h => visitInv_mainStep env s h)
    (fun i s _ h => visitInv_probeStep env i s h) t s h

theorem visitInv_exec (env : Env) (sched : List Tid) :
    ∀ s : State, VisitInv (env.listing.getD []) s →
      VisitInv (env.listing.getD []) (exec env sched s) := by
  induction sched with
  | nil => intro s h; exact h
  | cons t ts ih =>
    intro s h
    exact ih _ (visitInv_step env t s h)

theorem visitInv_complete {keys : List String} {s : State}
    (h : VisitInv keys s) (hpc : s.pc = MainPC.wait ∨ s.pc = MainPC.returned) :
    readKeys s.trace = keys := by
  obtain ⟨done, rest, hk, hph, hrk⟩ := h
  have hrest : rest = [] := by
    rcases hph with h | h | h
    · rcases hpc with hpc | hpc <;> simp [hpc] at h
    · rcases hpc with hpc | hpc <;> simp [hpc] at h
    · exact h.1
  subst hrest
  simp only [List.append_nil] at hk
  rw [hrk, hk]

theorem scan_completes (env : Env) (m : Monitor) (kv : KVData) :
    (exec env (List.replicate ((env.listing.getD []).length + 2) Tid.main)
        (checkWebsitesEntry m kv)).crashed = false
    ∧ scanDone (exec env (List.replicate ((env.listing.getD []).length + 2) Tid.main)
        (checkWebsitesEntry m kv)) :=
  main_alone_reaches_wait env _ (checkWebsitesEntry m kv) rfl (le_refl _)

theorem noThrow_envABC : NoThrow envABC := by
  intro i url
  simp [envABC]

end Gomon
